import Mathlib

/-!
Verification of the cursor-goal-guardian repository against its specification.

This file is a shallow embedding, in Lean 4, of the four core subsystems of
the repository:

* the event-sourced state engine of `src/unnamed/part_002` (the extension
  package module `stateStore.ts`): the `AgentState` document, the
  per-action-type reducer `applyActionJson`, `dispatchAction` with its
  strict-mode content-hash guard, and `rebuildState`;
* the violation tracker of the hook package (`violations.ts`, whose code is
  carried in `src/packages/cursor-goal-guardian-hook/test/cli.test.ts`);
* the severity/policy engine and the action-gate event loop of
  `src/packages/cursor-goal-guardian-hook/src/cli.ts`;
* the permit authority of `src/packages/cursor-goal-guardian-mcp/src/index.ts`.

Modelling conventions, used throughout:

* JavaScript wall-clock reads (`new Date().toISOString()`) and random id
  draws (`crypto.randomUUID` / `randomBytes`) are modelled by an explicit
  environment `Env`: two arbitrary streams indexed by a call counter that is
  threaded through every function in source order.  A real execution
  corresponds to some choice of `Env`.
* Files on disk are modelled by a `Store` record of `Option`-valued
  documents; `none` is a missing or unreadable file.  An atomic
  write-then-rename is a functional update of the record.
* Epoch-millisecond values obtained from `Date.parse` / `Date.now` in the
  hook and permit code are modelled as `Int`.
* External library calls are modelled by executable Lean functions with the
  library's documented semantics: `minimatch` (options `dot:true`,
  `nocase:true`) on the literal/`*`/`?`/globstar fragment that the policy and
  permit patterns use, and node's `crypto` SHA-256, implemented here in full.
* Ajv JSON-schema validation holds by construction for the typed values of
  this embedding except for the one shape the dispatcher can actually
  violate (a non-object action payload), which is checked explicitly.
-/

set_option linter.unusedVariables false
set_option maxRecDepth 100000
set_option linter.unusedTactic false

namespace CGG

/-! ### Small string and list utilities -/

def joinSep (sep : String) : List String → String
  | [] => ""
  | [s] => s
  | s :: rest => s ++ sep ++ joinSep sep rest

/-- ASCII lower-casing (the inputs this repository case-folds are ASCII). -/
def charLower (c : Char) : Char :=
  if 65 ≤ c.toNat && c.toNat ≤ 90 then Char.ofNat (c.toNat + 32) else c

def strLower (s : String) : String := String.mk (s.data.map charLower)

def charIsDigit (c : Char) : Bool := 48 ≤ c.toNat && c.toNat ≤ 57

def charIsAlnum (c : Char) : Bool :=
  charIsDigit c || (65 ≤ c.toNat && c.toNat ≤ 90) || (97 ≤ c.toNat && c.toNat ≤ 122)

def isJsWhitespace (c : Char) : Bool :=
  c == ' ' || c == '\t' || c == '\n' || c == '\r' || c == '\x0c' || c == '\x0b'

def strTrim (s : String) : String :=
  String.mk (((s.data.dropWhile isJsWhitespace).reverse.dropWhile isJsWhitespace).reverse)

/-- JavaScript `s.split(sep)` for a one-character separator: empty segments
are kept and the empty string splits to `[""]`. -/
def splitOnChar (sep : Char) : List Char → List (List Char)
  | [] => [[]]
  | c :: rest =>
    match splitOnChar sep rest with
    | [] => [[]]
    | seg :: segs => if c == sep then [] :: seg :: segs else (c :: seg) :: segs

def strSplitOn (sep : Char) (s : String) : List String :=
  (splitOnChar sep s.data).map String.mk

def takePrefixEq : List Char → List Char → Bool
  | [], _ => true
  | _ :: _, [] => false
  | a :: as, b :: bs => a == b && takePrefixEq as bs

def infixOfChars (sub : List Char) : List Char → Bool
  | [] => sub.isEmpty
  | c :: rest => takePrefixEq sub (c :: rest) || infixOfChars sub rest

/-- JavaScript `s.includes(sub)`. -/
def strContainsSub (s sub : String) : Bool := infixOfChars sub.data s.data

def strStartsWith (s pfx : String) : Bool := takePrefixEq pfx.data s.data

def strEndsWith (s sfx : String) : Bool := takePrefixEq sfx.data.reverse s.data.reverse

def mapWithIdxFrom (f : Nat → α → β) (i : Nat) : List α → List β
  | [] => []
  | a :: rest => f i a :: mapWithIdxFrom f (i + 1) rest

def mapWithIdx (f : Nat → α → β) (xs : List α) : List β := mapWithIdxFrom f 0 xs

/-- An exact rational, kept executable and unnormalized; every JavaScript
number this repository computes with (scores `0.2`, `0.4`, `0.6`, `1`,
minute counts) is exactly representable.  The denominator is positive by
convention. -/
structure QNum where
  num : Int
  den : Nat
deriving DecidableEq

def qLe (a b : QNum) : Bool := a.num * (b.den : Int) ≤ b.num * (a.den : Int)

def qLt (a b : QNum) : Bool := a.num * (b.den : Int) < b.num * (a.den : Int)

def hexDigitChar (n : Nat) : Char :=
  if n < 10 then Char.ofNat (48 + n) else Char.ofNat (87 + n)

def hexByteStr (n : Nat) : String :=
  String.mk [hexDigitChar (n / 16 % 16), hexDigitChar (n % 16)]

def natDigitsFuel : Nat → Nat → List Char
  | 0, _ => []
  | fuel + 1, n =>
    if n < 10 then [hexDigitChar n]
    else natDigitsFuel fuel (n / 10) ++ [hexDigitChar (n % 10)]

/-- Decimal rendering of a natural, as JavaScript renders these integers. -/
def natToString (n : Nat) : String := String.mk (natDigitsFuel (n + 1) n)

def intToString (n : Int) : String :=
  if n < 0 then "-" ++ natToString n.natAbs else natToString n.natAbs

/-! ### The `minimatch` glob matcher

Model of the `minimatch` library as the hook invokes it
(`minimatch(value, pattern, { dot: true, nocase: true })`), restricted to the
fragment the repository's policy and permit patterns use: literal characters,
`*`, `?`, and the `**` globstar segment.  Both strings are lower-cased
(`nocase`), split on `/`, and matched segment-wise; `*` matches any run of
characters within one segment (`dot: true` disables the leading-dot guard);
all other characters match literally. -/

def segMatchFuel : Nat → List Char → List Char → Bool
  | 0, _, _ => false
  | fuel + 1, pat, val =>
    match pat, val with
    | [], [] => true
    | [], _ :: _ => false
    | '*' :: ps, vs =>
      segMatchFuel fuel ps vs ||
        (match vs with
         | [] => false
         | _ :: vs2 => segMatchFuel fuel ('*' :: ps) vs2)
    | '?' :: _, [] => false
    | '?' :: ps, _ :: vs => segMatchFuel fuel ps vs
    | _ :: _, [] => false
    | p :: ps, v :: vs => p == v && segMatchFuel fuel ps vs

def segMatch (pat val : List Char) : Bool :=
  segMatchFuel (pat.length + val.length + 1) pat val

def segsMatchFuel : Nat → List (List Char) → List (List Char) → Bool
  | 0, _, _ => false
  | fuel + 1, pats, vals =>
    match pats, vals with
    | [], [] => true
    | [], _ :: _ => false
    | p :: ps, vs =>
      if p = ['*', '*'] then
        segsMatchFuel fuel ps vs ||
          (match vs with
           | [] => false
           | _ :: vs2 => segsMatchFuel fuel (p :: ps) vs2)
      else
        match vs with
        | [] => false
        | v :: vs2 => segMatch p v && segsMatchFuel fuel ps vs2

def minimatchDotNocase (value pattern : String) : Bool :=
  let psegs := (strSplitOn '/' (strLower pattern)).map String.data
  let vsegs := (strSplitOn '/' (strLower value)).map String.data
  segsMatchFuel (psegs.length + vsegs.length + 1) psegs vsegs

/-- From `cli.ts`: `patterns.some((pat) => minimatch(value, pat, { dot: true, nocase: true }))`. -/
def globAny (patterns : List String) (value : String) : Bool :=
  patterns.any fun pat => minimatchDotNocase value pat

/-! ### SHA-256

Executable model of node's `crypto.createHash("sha256")` digest over the
UTF-8 bytes of a string, with all word arithmetic on `Nat` modulo `2 ^ 32`. -/

def w32 : Nat := 4294967296

def add32 (a b : Nat) : Nat := (a + b) % w32

def rotr (r x : Nat) : Nat := (x / 2 ^ r + (x % 2 ^ r) * 2 ^ (32 - r)) % w32

def shr (r x : Nat) : Nat := x / 2 ^ r

def bsig0 (x : Nat) : Nat := Nat.xor (Nat.xor (rotr 2 x) (rotr 13 x)) (rotr 22 x)
def bsig1 (x : Nat) : Nat := Nat.xor (Nat.xor (rotr 6 x) (rotr 11 x)) (rotr 25 x)
def ssig0 (x : Nat) : Nat := Nat.xor (Nat.xor (rotr 7 x) (rotr 18 x)) (shr 3 x)
def ssig1 (x : Nat) : Nat := Nat.xor (Nat.xor (rotr 17 x) (rotr 19 x)) (shr 10 x)

def chF (x y z : Nat) : Nat := Nat.xor (Nat.land x y) (Nat.land (w32 - 1 - x) z)
def majF (x y z : Nat) : Nat :=
  Nat.xor (Nat.xor (Nat.land x y) (Nat.land x z)) (Nat.land y z)

def kConsts : List Nat :=
  [1116352408, 1899447441, 3049323471, 3921009573, 961987163, 1508970993, 2453635748, 2870763221,
   3624381080, 310598401, 607225278, 1426881987, 1925078388, 2162078206, 2614888103, 3248222580,
   3835390401, 4022224774, 264347078, 604807628, 770255983, 1249150122, 1555081692, 1996064986,
   2554220882, 2821834349, 2952996808, 3210313671, 3336571891, 3584528711, 113926993, 338241895,
   666307205, 773529912, 1294757372, 1396182291, 1695183700, 1986661051, 2177026350, 2456956037,
   2730485921, 2820302411, 3259730800, 3345764771, 3516065817, 3600352804, 4094571909, 275423344,
   430227734, 506948616, 659060556, 883997877, 958139571, 1322822218, 1537002063, 1747873779,
   1955562222, 2024104815, 2227730452, 2361852424, 2428436474, 2756734187, 3204031479,
   3329325298]

def sha256h0 : List Nat :=
  [1779033703, 3144134277, 1013904242, 2773480762,
   1359893119, 2600822924, 528734635, 1541459225]

/-- Big-endian 32-bit words of a byte list whose length is a multiple of 4. -/
def bytesToWords : List Nat → List Nat
  | b0 :: b1 :: b2 :: b3 :: rest => (((b0 * 256 + b1) * 256 + b2) * 256 + b3) :: bytesToWords rest
  | _ => []

/-- Extend the 16 block words by `i` further message-schedule words. -/
def extendSched (ws : List Nat) (i : Nat) : List Nat :=
  match i with
  | 0 => ws
  | j + 1 =>
    let ws' := extendSched ws j
    let t := ws.length + j
    let a := ws'.getD (t - 2) 0
    let b := ws'.getD (t - 7) 0
    let c := ws'.getD (t - 15) 0
    let d := ws'.getD (t - 16) 0
    ws' ++ [add32 (add32 (ssig1 a) b) (add32 (ssig0 c) d)]

def roundStep (st : List Nat) (kw : Nat × Nat) : List Nat :=
  match st with
  | [a, b, c, d, e, f, g, h] =>
    let t1 := add32 (add32 (add32 h (bsig1 e)) (add32 (chF e f g) kw.1)) kw.2
    let t2 := add32 (bsig0 a) (majF a b c)
    [add32 t1 t2, a, b, c, add32 d t1, e, f, g]
  | st => st

def sha256compress (hs : List Nat) (block : List Nat) : List Nat :=
  let ws := extendSched (bytesToWords block) 48
  let st := (kConsts.zip ws).foldl roundStep hs
  (hs.zip st).map fun p => add32 p.1 p.2

def chunksFuel : Nat → List Nat → List (List Nat)
  | _, [] => []
  | 0, bs => [bs.take 64]
  | fuel + 1, bs => bs.take 64 :: chunksFuel fuel (bs.drop 64)

def sha256chunks (bs : List Nat) : List (List Nat) := chunksFuel bs.length bs

def padMessage (bs : List Nat) : List Nat :=
  let len := bs.length
  let bitLen := len * 8
  let zeros := (64 - (len + 9) % 64) % 64
  bs ++ [128] ++ List.replicate zeros 0 ++
    [bitLen / 2 ^ 56 % 256, bitLen / 2 ^ 48 % 256, bitLen / 2 ^ 40 % 256, bitLen / 2 ^ 32 % 256,
     bitLen / 2 ^ 24 % 256, bitLen / 2 ^ 16 % 256, bitLen / 2 ^ 8 % 256, bitLen % 256]

def wordToHex (x : Nat) : List Char :=
  [hexDigitChar (x / 2 ^ 28 % 16), hexDigitChar (x / 2 ^ 24 % 16),
   hexDigitChar (x / 2 ^ 20 % 16), hexDigitChar (x / 2 ^ 16 % 16),
   hexDigitChar (x / 2 ^ 12 % 16), hexDigitChar (x / 2 ^ 8 % 16),
   hexDigitChar (x / 2 ^ 4 % 16), hexDigitChar (x % 16)]

def sha256hexBytes (bs : List Nat) : String :=
  let hs := (sha256chunks (padMessage bs)).foldl sha256compress sha256h0
  String.mk (hs.foldr (fun w acc => wordToHex w ++ acc) [])

/-- UTF-8 encoding of a string as a byte list. -/
def utf8Bytes (s : String) : List Nat :=
  s.data.foldr
    (fun c acc =>
      let n := c.toNat
      if n < 128 then n :: acc
      else if n < 2048 then (192 + n / 64) :: (128 + n % 64) :: acc
      else if n < 65536 then
        (224 + n / 4096) :: (128 + n / 64 % 64) :: (128 + n % 64) :: acc
      else
        (240 + n / 262144) :: (128 + n / 4096 % 64) :: (128 + n / 64 % 64) :: (128 + n % 64) :: acc)
    []

def sha256hex (s : String) : String := sha256hexBytes (utf8Bytes s)

/-! ### JSON values

Action payloads of the state engine are arbitrary parsed JSON.  Numbers are
modelled as integers (the state engine never stores a fractional number). -/

inductive Json where
  | null
  | bool (b : Bool)
  | num (n : Int)
  | str (s : String)
  | arr (elems : List Json)
  | obj (fields : List (String × Json))

/-- Property access `v[key]`: `none` models the JavaScript `undefined`. -/
def jsGetField : Json → String → Option Json
  | .obj fields, key => fields.lookup key
  | _, _ => none

mutual

/-- JavaScript `String(v)` coercion. -/
def jsToString : Json → String
  | .null => "null"
  | .bool true => "true"
  | .bool false => "false"
  | .num n => intToString n
  | .str s => s
  | .arr xs => joinSep "," (jsToStringList xs)
  | .obj _ => "[object Object]"

/-- Elements of `Array.prototype.toString`: a `null` element renders empty. -/
def jsToStringList : List Json → List String
  | [] => []
  | .null :: rest => "" :: jsToStringList rest
  | e :: rest => jsToString e :: jsToStringList rest

end

/-- JavaScript `String(v[key] ?? dflt)` where `dflt` is a string literal. -/
def jsStringOr (payload : Json) (key : String) (dflt : String) : String :=
  match jsGetField payload key with
  | none => dflt
  | some .null => dflt
  | some v => jsToString v

/-- JavaScript truthiness of a JSON value. -/
def jsTruthy : Json → Bool
  | .null => false
  | .bool b => b
  | .num n => n != 0
  | .str s => s != ""
  | .arr _ => true
  | .obj _ => true

/-- Truthiness of `payload[key]` (`undefined` is falsy). -/
def jsTruthyField (payload : Json) (key : String) : Bool :=
  match jsGetField payload key with
  | none => false
  | some v => jsTruthy v

/-! ### State engine: data model (`stateStore.ts`, src/unnamed/part_002) -/

inductive AgentTaskStatus where
  | todo
  | doing
  | done
deriving DecidableEq

def AgentTaskStatus.jsonName : AgentTaskStatus → String
  | .todo => "todo"
  | .doing => "doing"
  | .done => "done"

structure AgentTask where
  id : String
  title : String
  status : AgentTaskStatus
deriving DecidableEq

inductive QuestionStatus where
  | open_
  | closed
deriving DecidableEq

def QuestionStatus.jsonName : QuestionStatus → String
  | .open_ => "open"
  | .closed => "closed"

structure AgentQuestion where
  id : String
  text : String
  ts : String
  status : QuestionStatus
deriving DecidableEq

structure AgentDecision where
  id : String
  text : String
  rationale : String
  ts : String
deriving DecidableEq

structure AgentMeta where
  lastActionId : Option String
  lastUpdated : String
  actionCount : Nat
  hash : String
deriving DecidableEq

structure AgentState where
  schemaVersion : Nat
  goal : String
  definition_of_done : List String
  constraints : List String
  active_task : Option String
  tasks : List AgentTask
  queue : List String
  open_questions : List AgentQuestion
  decisions : List AgentDecision
  pinned_context : List String
  _meta : AgentMeta
deriving DecidableEq

inductive Actor where
  | agent
  | human
deriving DecidableEq

structure AgentAction where
  id : String
  ts : String
  actor : Actor
  type : String
  payload : Json

inductive ReducerKind where
  | json
  | js
deriving DecidableEq

structure InvariantsConfig where
  singleActiveTask : Bool
  requireDecisionForTaskSwitch : Bool
  disallowTodoToDone : Bool
deriving DecidableEq

structure RulesConfig where
  preferredReducer : ReducerKind
  strictMode : Bool
  snapshotInterval : Nat
  syncContractFromState : Bool
  invariants : InvariantsConfig
deriving DecidableEq

structure Snapshot where
  lastActionIndex : Int
  state : AgentState
deriving DecidableEq

/-- The goal contract persisted in `contract.json`, shared by the state
engine, the hook and the MCP server.  The optional fields of the parsed JSON
(`goal ?? ""` and so on) are collapsed into their defaulted values. -/
structure GoalContract where
  goal : String
  success_criteria : List String
  constraints : List String
deriving DecidableEq

/-- The ambient effects of the JavaScript runtime: the `k`-th wall-clock read
(`new Date().toISOString()`) and the `k`-th random id suffix
(`crypto.randomUUID()` / `randomBytes`), both indexed by one call counter
threaded in source order.  Any real execution is some choice of `Env`. -/
structure Env where
  now : Nat → String
  fresh : Nat → String

def nowIso (env : Env) (k : Nat) : String × Nat := (env.now k, k + 1)

def newId (env : Env) (pfx : String) (k : Nat) : String × Nat :=
  (pfx ++ "_" ++ env.fresh k, k + 1)

/-! ### State engine: stable stringify and content hash -/

def jsonEscapeChar (c : Char) : String :=
  if c = '"' then "\\\""
  else if c = '\\' then "\\\\"
  else if c = '\x08' then "\\b"
  else if c = '\x0c' then "\\f"
  else if c = '\n' then "\\n"
  else if c = '\r' then "\\r"
  else if c = '\t' then "\\t"
  else if c.toNat < 32 then "\\u00" ++ hexByteStr c.toNat
  else String.singleton c

/-- `JSON.stringify` of a string value. -/
def jsonQuote (s : String) : String :=
  "\"" ++ String.join (s.data.map jsonEscapeChar) ++ "\""

def stringifyStrList (xs : List String) : String :=
  "[" ++ joinSep "," (xs.map jsonQuote) ++ "]"

def stringifyOptStr : Option String → String
  | none => "null"
  | some s => jsonQuote s

def stringifyTask (t : AgentTask) : String :=
  "\x7b\"id\":" ++ jsonQuote t.id ++ ",\"status\":" ++ jsonQuote t.status.jsonName ++
    ",\"title\":" ++ jsonQuote t.title ++ "\x7d"

def stringifyQuestion (q : AgentQuestion) : String :=
  "\x7b\"id\":" ++ jsonQuote q.id ++ ",\"status\":" ++ jsonQuote q.status.jsonName ++
    ",\"text\":" ++ jsonQuote q.text ++ ",\"ts\":" ++ jsonQuote q.ts ++ "\x7d"

def stringifyDecision (d : AgentDecision) : String :=
  "\x7b\"id\":" ++ jsonQuote d.id ++ ",\"rationale\":" ++ jsonQuote d.rationale ++
    ",\"text\":" ++ jsonQuote d.text ++ ",\"ts\":" ++ jsonQuote d.ts ++ "\x7d"

def stringifyMeta (m : AgentMeta) : String :=
  "\x7b\"actionCount\":" ++ natToString m.actionCount ++ ",\"hash\":" ++ jsonQuote m.hash ++
    ",\"lastActionId\":" ++ stringifyOptStr m.lastActionId ++
    ",\"lastUpdated\":" ++ jsonQuote m.lastUpdated ++ "\x7d"

/-- The source's generic key-sorting serializer `stableStringify`, applied to
the fixed object layout of an `AgentState` document: every (nested) object is
written with its keys in sorted order, exactly as `Object.keys(obj).sort()`
orders the keys of this shape. -/
def stableStringifyState (s : AgentState) : String :=
  "\x7b\"_meta\":" ++ stringifyMeta s._meta ++
    ",\"active_task\":" ++ stringifyOptStr s.active_task ++
    ",\"constraints\":" ++ stringifyStrList s.constraints ++
    ",\"decisions\":" ++ ("[" ++ joinSep "," (s.decisions.map stringifyDecision) ++ "]") ++
    ",\"definition_of_done\":" ++ stringifyStrList s.definition_of_done ++
    ",\"goal\":" ++ jsonQuote s.goal ++
    ",\"open_questions\":" ++ ("[" ++ joinSep "," (s.open_questions.map stringifyQuestion) ++ "]") ++
    ",\"pinned_context\":" ++ stringifyStrList s.pinned_context ++
    ",\"queue\":" ++ stringifyStrList s.queue ++
    ",\"schemaVersion\":" ++ natToString s.schemaVersion ++
    ",\"tasks\":" ++ ("[" ++ joinSep "," (s.tasks.map stringifyTask) ++ "]") ++ "\x7d"

/-- From `stateStore.ts` lines 204-211: hash of the stable stringify of the
state with `_meta.hash` blanked. -/
def computeHash (s : AgentState) : String :=
  sha256hex (stableStringifyState { s with _meta := { s._meta with hash := "" } })

/-- From `stateStore.ts` lines 213-234 (`defaultState`). -/
def defaultState (env : Env) (k : Nat) : AgentState × Nat :=
  let (lu, k1) := nowIso env k
  let base : AgentState :=
    { schemaVersion := 1
      goal := ""
      definition_of_done := []
      constraints := []
      active_task := none
      tasks := []
      queue := []
      open_questions := []
      decisions := []
      pinned_context := []
      _meta := { lastActionId := none, lastUpdated := lu, actionCount := 0, hash := "" } }
  ({ base with _meta := { base._meta with hash := computeHash base } }, k1)

/-- From `stateStore.ts` lines 236-248 (`defaultRules`). -/
def defaultRules : RulesConfig :=
  { preferredReducer := .json
    strictMode := true
    snapshotInterval := 25
    syncContractFromState := true
    invariants :=
      { singleActiveTask := true
        requireDecisionForTaskSwitch := true
        disallowTodoToDone := true } }

/-! ### State engine: the per-action-type reducer -/

/-- In-place mutation `task.status = st` of the task object returned by
`next.tasks.find(...)`: the first list element with the given id is updated. -/
def setFirstTaskStatus (tid : String) (st : AgentTaskStatus) : List AgentTask → List AgentTask
  | [] => []
  | t :: rest =>
    if t.id == tid then { t with status := st } :: rest
    else t :: setFirstTaskStatus tid st rest

/-- In-place mutation `q.status = "closed"` of the first question with the id. -/
def setFirstQuestionClosed (qid : String) : List AgentQuestion → List AgentQuestion
  | [] => []
  | q :: rest =>
    if q.id == qid then { q with status := .closed } :: rest
    else q :: setFirstQuestionClosed qid rest

/-- The `ADD_TASKS` loop of `applyActionJson`: for each element, take its
`id` (or draw a fresh one), skip ids already present, and append a `todo`
task and its queue entry.  Property access on a `null` element raises, as in
JavaScript. -/
def addTasksLoop (env : Env) :
    List Json → List AgentTask → List String → Nat →
      Except String (List AgentTask × List String × Nat)
  | [], tasks, queue, k => .ok (tasks, queue, k)
  | t :: rest, tasks, queue, k =>
    match t with
    | .null => .error "TypeError: cannot read properties of null"
    | t =>
      let (id, k1) :=
        match jsGetField t "id" with
        | none => newId env "task" k
        | some .null => newId env "task" k
        | some v => (jsToString v, k)
      if tasks.any fun x => x.id == id then addTasksLoop env rest tasks queue k1
      else
        addTasksLoop env rest
          (tasks ++ [{ id := id, title := jsStringOr t "title" "Untitled task", status := .todo }])
          (queue ++ [id]) k1

/-- From `stateStore.ts` lines 378-468 (`applyActionJson`): the pure
per-type transition table.  Each branch mirrors the corresponding `case` of
the source `switch`; the common tail stamps `_meta` and recomputes the
content hash.  Ajv state validation (`validateStateOrThrow`) holds by
construction for the typed states this embedding produces. -/
def applyActionJson (env : Env) (state : AgentState) (action : AgentAction)
    (rules : RulesConfig) (k : Nat) : Except String (AgentState × Nat) :=
  let payload := action.payload
  let branch : Except String (AgentState × Nat) :=
    if action.type == "SET_GOAL" then
      let next :=
        { state with
          goal := jsStringOr payload "goal" ""
          definition_of_done :=
            match jsGetField payload "definition_of_done" with
            | some (.arr xs) => xs.map jsToString
            | _ => state.definition_of_done
          constraints :=
            match jsGetField payload "constraints" with
            | some (.arr xs) => xs.map jsToString
            | _ => state.constraints }
      .ok (next, k)
    else if action.type == "ADD_TASKS" then
      let elems :=
        match jsGetField payload "tasks" with
        | some (.arr xs) => xs
        | _ => []
      match addTasksLoop env elems state.tasks state.queue k with
      | .error e => .error e
      | .ok (tasks, queue, k1) => .ok ({ state with tasks := tasks, queue := queue }, k1)
    else if action.type == "START_TASK" then
      let taskId := jsStringOr payload "taskId" ""
      match state.tasks.find? fun t => t.id == taskId with
      | none => .error ("Task not found: " ++ taskId)
      | some _ =>
        let activeTruthy :=
          match state.active_task with
          | none => false
          | some a => a != ""
        let gate :=
          rules.invariants.singleActiveTask && activeTruthy &&
            state.active_task != some taskId &&
            rules.invariants.requireDecisionForTaskSwitch
        let decisionId := jsStringOr payload "decision_id" ""
        if gate && !(state.decisions.any fun d => d.id == decisionId) then
          .error "Decision required to switch active task."
        else
          .ok ({ state with
                  active_task := some taskId
                  tasks := setFirstTaskStatus taskId .doing state.tasks }, k)
    else if action.type == "COMPLETE_TASK" then
      let taskId := jsStringOr payload "taskId" ""
      match state.tasks.find? fun t => t.id == taskId with
      | none => .error ("Task not found: " ++ taskId)
      | some task =>
        if rules.invariants.disallowTodoToDone && task.status == .todo &&
            !jsTruthyField payload "allowSkip" then
          .error "Cannot complete a task that has not been started."
        else
          .ok ({ state with
                  tasks := setFirstTaskStatus taskId .done state.tasks
                  active_task :=
                    if state.active_task == some taskId then none else state.active_task
                  queue := state.queue.filter fun id => id != taskId }, k)
    else if action.type == "OPEN_QUESTION" then
      let text := jsStringOr payload "text" ""
      if text == "" then .error "OPEN_QUESTION requires text."
      else
        let (qid, k1) := newId env "q" k
        let (ts, k2) := nowIso env k1
        .ok ({ state with
                open_questions :=
                  state.open_questions ++ [{ id := qid, text := text, ts := ts, status := .open_ }] },
          k2)
    else if action.type == "CLOSE_QUESTION" then
      let qid := jsStringOr payload "id" ""
      match state.open_questions.find? fun q => q.id == qid with
      | none => .error ("Question not found: " ++ qid)
      | some _ => .ok ({ state with open_questions := setFirstQuestionClosed qid state.open_questions }, k)
    else if action.type == "ADD_DECISION" then
      let text := jsStringOr payload "text" ""
      let rationale := jsStringOr payload "rationale" ""
      if text == "" || rationale == "" then .error "ADD_DECISION requires text and rationale."
      else
        let (did, k1) := newId env "dec" k
        let (ts, k2) := nowIso env k1
        .ok ({ state with
                decisions :=
                  state.decisions ++ [{ id := did, text := text, rationale := rationale, ts := ts }] },
          k2)
    else if action.type == "PIN_CONTEXT" then
      let p := jsStringOr payload "path" ""
      if p != "" && !state.pinned_context.contains p then
        .ok ({ state with pinned_context := state.pinned_context ++ [p] }, k)
      else .ok (state, k)
    else if action.type == "UNPIN_CONTEXT" then
      let p := jsStringOr payload "path" ""
      .ok ({ state with pinned_context := state.pinned_context.filter fun x => x != p }, k)
    else .error ("Unknown action type: " ++ action.type)
  match branch with
  | .error e => .error e
  | .ok (next, k1) =>
    let (lu, k2) := nowIso env k1
    let next :=
      { next with
        _meta :=
          { lastActionId := some action.id
            lastUpdated := lu
            actionCount := state._meta.actionCount + 1
            hash := "" } }
    .ok ({ next with _meta := { next._meta with hash := computeHash next } }, k2)

/-- Ajv action-schema validation (`validateOrThrow`): for the typed actions
of this embedding the only violable constraint is that `payload` is an
object. -/
def validateOrThrow (a : AgentAction) : Except String Unit :=
  match a.payload with
  | .obj _ => .ok ()
  | _ => .error "Invalid action: data/payload must be object"

/-- State-schema validation (`validateStateOrThrow`): holds by construction
for the typed states of this embedding. -/
def validateStateOrThrow (_ : AgentState) : Except String Unit := .ok ()

/-- From `stateStore.ts` lines 470-489 (`reduceAction`).  The dynamic import
of a user-supplied `reducer.js` is modelled by the `jsReducer` parameter:
`none` means the file is missing or fails to load. -/
def reduceAction (env : Env) (jsReducer : Option (AgentState → AgentAction → AgentState))
    (rules : RulesConfig) (state : AgentState) (action : AgentAction) (k : Nat) :
    Except String (AgentState × Nat) :=
  match validateOrThrow action with
  | .error e => .error e
  | .ok () =>
    match rules.preferredReducer, jsReducer with
    | .js, some red =>
      let next := red state action
      match validateStateOrThrow next with
      | .error e => .error e
      | .ok () => .ok (next, k)
    | _, _ => applyActionJson env state action rules k

/-! ### State engine: the store and its operations -/

/-- The on-disk documents of `.cursor/goal-guardian/`, each `none` when the
file is missing or unreadable.  The `reducer.js` template file is outside the
model; its loaded content only enters through the `jsReducer` parameter. -/
structure Store where
  stateDoc : Option AgentState
  actionsDoc : Option (List AgentAction)
  rulesDoc : Option RulesConfig
  snapshotDoc : Option Snapshot
  contractDoc : Option GoalContract

/-- From `stateStore.ts` lines 304-318 (`seedStateFromContract`): `none`
models the `catch` branch (missing or unparsable contract file). -/
def seedStateFromContract (env : Env) (contract : Option GoalContract) (k : Nat) :
    Option AgentState × Nat :=
  match contract with
  | none => (none, k)
  | some c =>
    let (base, k1) := defaultState env k
    let base :=
      { base with
        goal := c.goal
        definition_of_done := c.success_criteria
        constraints := c.constraints }
    let (lu, k2) := nowIso env k1
    let base := { base with _meta := { base._meta with lastUpdated := lu, hash := "" } }
    (some { base with _meta := { base._meta with hash := computeHash base } }, k2)

/-- From `stateStore.ts` lines 250-276 (`ensureStateStoreFiles`): seed the
state file from the contract (or the default state) when missing, and create
empty actions and default rules files when missing. -/
def ensureStateStoreFiles (env : Env) (store : Store) (k : Nat) : Store × Nat :=
  let (store, k) :=
    match store.stateDoc with
    | some _ => (store, k)
    | none =>
      match seedStateFromContract env store.contractDoc k with
      | (some s, k1) => ({ store with stateDoc := some s }, k1)
      | (none, k1) =>
        let (d, k2) := defaultState env k1
        ({ store with stateDoc := some d }, k2)
  let store :=
    if store.actionsDoc.isNone then { store with actionsDoc := some [] } else store
  let store :=
    if store.rulesDoc.isNone then { store with rulesDoc := some defaultRules } else store
  (store, k)

/-- From `stateStore.ts` lines 320-324 (`loadRules`): the file's config, or
the defaults when missing; the spread merge of a fully-formed stored config
over the defaults is the stored config itself. -/
def loadRules (store : Store) : RulesConfig :=
  store.rulesDoc.getD defaultRules

/-- From `stateStore.ts` lines 326-330 (`loadState`): `readJson` with an
eagerly evaluated `defaultState()` fallback. -/
def loadState (env : Env) (store : Store) (k : Nat) : AgentState × Nat :=
  let (d, k1) := defaultState env k
  (store.stateDoc.getD d, k1)

def loadActions (store : Store) : List AgentAction :=
  store.actionsDoc.getD []

/-- The caller-facing shape of `dispatchAction`'s action argument
(`Omit<AgentAction, "id" | "ts"> & { id?; ts? }`, with an optional actor). -/
structure ActionDraft where
  id : Option String
  ts : Option String
  actor : Option Actor
  type : String
  payload : Option Json

/-- The goal contract written back by `syncContractFromState`. -/
def contractFromState (s : AgentState) : GoalContract :=
  { goal := s.goal, success_criteria := s.definition_of_done, constraints := s.constraints }

/-- From `stateStore.ts` lines 491-532 (`dispatchAction`): ensure the store
files, load the current state, verify the stored content hash in strict
mode, build the action, reduce, and only then append the action to the log,
write the new state, sync the contract and (every `snapshotInterval` actions)
write a snapshot.  The returned store reflects every write performed; on a
thrown error it is the store as left by `ensureStateStoreFiles`. -/
def dispatchAction (env : Env) (jsReducer : Option (AgentState → AgentAction → AgentState))
    (store : Store) (draft : ActionDraft) (k : Nat) :
    Store × Except String AgentState × Nat :=
  let rules := loadRules store
  let (store1, k1) := ensureStateStoreFiles env store k
  let (current, k2) := loadState env store1 k1
  if rules.strictMode && current._meta.hash != "" && current._meta.hash != computeHash current then
    (store1, .error "State file was edited manually. Rebuild state before dispatching new actions.", k2)
  else
    let (aid, k3) :=
      match draft.id with
      | some i => (i, k2)
      | none => newId env "act" k2
    let (ats, k4) :=
      match draft.ts with
      | some t => (t, k3)
      | none => nowIso env k3
    let action : AgentAction :=
      { id := aid, ts := ats, actor := draft.actor.getD .agent, type := draft.type,
        payload := draft.payload.getD (.obj []) }
    match reduceAction env jsReducer rules current action k4 with
    | .error e => (store1, .error e, k4)
    | .ok (next, k5) =>
      let log := loadActions store1 ++ [action]
      let store2 := { store1 with actionsDoc := some log, stateDoc := some next }
      let store3 :=
        if rules.syncContractFromState then
          { store2 with contractDoc := some (contractFromState next) }
        else store2
      let store4 :=
        if 0 < rules.snapshotInterval && log.length % rules.snapshotInterval == 0 then
          { store3 with snapshotDoc := some { lastActionIndex := (log.length : Int) - 1, state := next } }
        else store3
      (store4, .ok next, k5)

/-- The replay loop of `rebuildState`: fold `reduceAction` over the pending
actions, propagating the first thrown error. -/
def replayFold (env : Env) (jsReducer : Option (AgentState → AgentAction → AgentState))
    (rules : RulesConfig) :
    List AgentAction → AgentState → Nat → Except String (AgentState × Nat)
  | [], s, k => .ok (s, k)
  | a :: rest, s, k =>
    match reduceAction env jsReducer rules s a k with
    | .error e => .error e
    | .ok (s', k') => replayFold env jsReducer rules rest s' k'

/-- From `stateStore.ts` lines 534-564 (`rebuildState`): replay the action
log from the most recent snapshot (or a contract-seeded / default initial
state), restamp `_meta` and the content hash, and persist state, contract
sync and a fresh snapshot. -/
def rebuildState (env : Env) (jsReducer : Option (AgentState → AgentAction → AgentState))
    (store : Store) (k : Nat) : Store × Except String AgentState × Nat :=
  let (store1, k1) := ensureStateStoreFiles env store k
  let rules := loadRules store1
  let actions := loadActions store1
  let (state0, k2) :=
    match store1.snapshotDoc with
    | some sn => (sn.state, k1)
    | none =>
      match seedStateFromContract env store1.contractDoc k1 with
      | (some s, k') => (s, k')
      | (none, k') => defaultState env k'
  let startIndex : Int :=
    match store1.snapshotDoc with
    | some sn => sn.lastActionIndex + 1
    | none => 0
  match replayFold env jsReducer rules (actions.drop startIndex.toNat) state0 k2 with
  | .error e => (store1, .error e, k2)
  | .ok (st, k3) =>
    let (lu, k4) := nowIso env k3
    let st :=
      { st with
        _meta := { st._meta with actionCount := actions.length, lastUpdated := lu, hash := "" } }
    let st := { st with _meta := { st._meta with hash := computeHash st } }
    let store2 := { store1 with stateDoc := some st }
    let store3 :=
      if rules.syncContractFromState then
        { store2 with contractDoc := some (contractFromState st) }
      else store2
    let store4 :=
      if 0 < rules.snapshotInterval then
        { store3 with
          snapshotDoc := some { lastActionIndex := (actions.length : Int) - 1, state := st } }
      else store3
    (store4, .ok st, k4)

/-! ### Violation tracker (`violations.ts`, carried in the hook test bundle)

ISO timestamps handled through `Date.parse` / `Date.now` are modelled by
their epoch-millisecond value (`Int`); the float minute arithmetic of
`shouldResetWarnings` is modelled exactly over `QNum`. -/

structure ViolationTracker where
  warningCounts : List (String × Nat)
  lastReset : Int
deriving DecidableEq

/-- Object-key assignment `counts[pattern] = v`: replace the first binding or
append a new one, preserving JavaScript key order. -/
def setCount : List (String × Nat) → String → Nat → List (String × Nat)
  | [], key, v => [(key, v)]
  | (k', v') :: rest, key, v =>
    if k' == key then (key, v) :: rest else (k', v') :: setCount rest key v

/-- From `violations.ts`: `(now - lastReset) / (1000 * 60) >= resetMinutes`. -/
def shouldResetWarnings (tracker : ViolationTracker) (resetMinutes : QNum) (now : Int) : Bool :=
  qLe resetMinutes ⟨now - tracker.lastReset, 1000 * 60⟩

/-- From `violations.ts`: `tracker.warningCounts[pattern] ?? 0`. -/
def getWarningCount (tracker : ViolationTracker) (pattern : String) : Nat :=
  (tracker.warningCounts.lookup pattern).getD 0

/-- From `violations.ts`: bump the pattern's count and return the new count
together with the mutated tracker. -/
def incrementWarning (tracker : ViolationTracker) (pattern : String) : Nat × ViolationTracker :=
  let current := getWarningCount tracker pattern
  (current + 1,
    { tracker with warningCounts := setCount tracker.warningCounts pattern (current + 1) })

/-- From `violations.ts`: clear every counter and restart the reset clock. -/
def resetWarnings (tracker : ViolationTracker) (now : Int) : ViolationTracker :=
  { warningCounts := [], lastReset := now }

/-! ### Hook policy model (`policy.ts` of the hook package) -/

inductive PolicySeverity where
  | HIGH_RISK
  | WARN
  | PERMIT_REQUIRED
  | ALLOWED
deriving DecidableEq

inductive TaskScopeSensitivity where
  | strict
  | balanced
  | lenient
deriving DecidableEq

structure PolicyRule where
  pattern : String
  severity : PolicySeverity
  reason : Option String
deriving DecidableEq

structure PolicyPatternSet where
  shell : List String
  mcp : List String
  read : List String
deriving DecidableEq

structure WarningConfig where
  maxWarningsBeforeBlock : Nat
  warningResetMinutes : QNum
  showGoalReminder : Bool
deriving DecidableEq

structure GoalGuardianPolicy where
  enforceReduxControl : Bool
  enforceTaskScope : Bool
  taskScopeSensitivity : TaskScopeSensitivity
  requirePermitForShell : Bool
  requirePermitForMcp : Bool
  requirePermitForRead : Bool
  autoRevertUnauthorizedEdits : Bool
  alwaysAllow : PolicyPatternSet
  highRiskPatterns : PolicyPatternSet
  warningConfig : WarningConfig
  shellRules : Option (List PolicyRule)
  mcpRules : Option (List PolicyRule)
  readRules : Option (List PolicyRule)
deriving DecidableEq

/-- From `policy.ts` (`defaultWarningConfig`). -/
def defaultWarningConfig : WarningConfig :=
  { maxWarningsBeforeBlock := 3, warningResetMinutes := ⟨60, 1⟩, showGoalReminder := true }

/-- From `policy.ts` (`defaultPolicy`), the current advisory-only policy
generation with `highRiskPatterns` and severity rule tables. -/
def defaultPolicy : GoalGuardianPolicy :=
  { enforceReduxControl := true
    enforceTaskScope := true
    taskScopeSensitivity := .balanced
    requirePermitForShell := false
    requirePermitForMcp := false
    requirePermitForRead := false
    autoRevertUnauthorizedEdits := false
    alwaysAllow :=
      { shell := ["git status*", "git diff*", "git rev-parse*", "ls*", "pwd",
                  "node -v", "npm -v", "pnpm -v"]
        mcp := ["goal-guardian/*"]
        read := [".cursor/goal-guardian/**", ".cursor/hooks.json", ".cursor/mcp.json"] }
    highRiskPatterns :=
      { shell := ["rm -rf /*", "rm -rf /", "*curl*|*sh*", "*wget*|*sh*"]
        mcp := []
        read := [".ai/goal-guardian/**", ".git/**", "**/.env", "**/.env.*", "**/*.pem", "**/*.key"] }
    warningConfig := defaultWarningConfig
    shellRules := some
      [⟨"rm -rf /", .HIGH_RISK, some "Destructive filesystem command"⟩,
       ⟨"rm -rf /*", .HIGH_RISK, some "Destructive filesystem command"⟩,
       ⟨"*:()\x7b :|:& \x7d;:*", .HIGH_RISK, some "Fork bomb pattern"⟩,
       ⟨"*> /dev/sda*", .HIGH_RISK, some "Direct disk write"⟩,
       ⟨"*dd if=*of=/dev/*", .HIGH_RISK, some "Direct disk write"⟩,
       ⟨"*mkfs.*", .HIGH_RISK, some "Filesystem format command"⟩,
       ⟨"*curl*|*sh*", .HIGH_RISK, some "Remote code execution pattern"⟩,
       ⟨"*wget*|*sh*", .HIGH_RISK, some "Remote code execution pattern"⟩,
       ⟨"*curl*|*bash*", .HIGH_RISK, some "Remote code execution pattern"⟩,
       ⟨"*wget*|*bash*", .HIGH_RISK, some "Remote code execution pattern"⟩,
       ⟨"rm -rf *", .WARN, some "Recursive force delete"⟩,
       ⟨"rm -r *", .WARN, some "Recursive delete"⟩,
       ⟨"*--force*", .WARN, some "Force flag bypasses safety checks"⟩,
       ⟨"*-f *", .WARN, some "Force flag may bypass safety checks"⟩,
       ⟨"git reset --hard*", .WARN, some "Destructive git operation"⟩,
       ⟨"git clean -fd*", .WARN, some "Removes untracked files"⟩,
       ⟨"git push --force*", .WARN, some "Force push can overwrite history"⟩,
       ⟨"git push -f*", .WARN, some "Force push can overwrite history"⟩,
       ⟨"npm publish*", .WARN, some "Publishing to npm registry"⟩,
       ⟨"yarn publish*", .WARN, some "Publishing to npm registry"⟩,
       ⟨"pnpm publish*", .WARN, some "Publishing to npm registry"⟩,
       ⟨"chmod 777*", .WARN, some "Overly permissive file permissions"⟩,
       ⟨"*sudo *", .WARN, some "Elevated privileges requested"⟩,
       ⟨"docker rm -f*", .WARN, some "Force remove container"⟩,
       ⟨"docker system prune*", .WARN, some "Removes unused Docker resources"⟩,
       ⟨"git status*", .ALLOWED, some "Read-only git operation"⟩,
       ⟨"git diff*", .ALLOWED, some "Read-only git operation"⟩,
       ⟨"git log*", .ALLOWED, some "Read-only git operation"⟩,
       ⟨"git branch*", .ALLOWED, some "Read-only git operation"⟩,
       ⟨"git rev-parse*", .ALLOWED, some "Read-only git operation"⟩,
       ⟨"ls*", .ALLOWED, some "List directory contents"⟩,
       ⟨"pwd", .ALLOWED, some "Print working directory"⟩,
       ⟨"echo *", .ALLOWED, some "Print text"⟩,
       ⟨"cat *", .ALLOWED, some "Read file contents"⟩,
       ⟨"head *", .ALLOWED, some "Read file head"⟩,
       ⟨"tail *", .ALLOWED, some "Read file tail"⟩,
       ⟨"node -v", .ALLOWED, some "Version check"⟩,
       ⟨"npm -v", .ALLOWED, some "Version check"⟩,
       ⟨"pnpm -v", .ALLOWED, some "Version check"⟩,
       ⟨"yarn -v", .ALLOWED, some "Version check"⟩,
       ⟨"which *", .ALLOWED, some "Locate command"⟩,
       ⟨"type *", .ALLOWED, some "Describe command"⟩]
    mcpRules := some [⟨"goal-guardian/*", .ALLOWED, some "Goal Guardian MCP tools"⟩]
    readRules := some
      [⟨"**/.env", .HIGH_RISK, some "Environment secrets"⟩,
       ⟨"**/.env.*", .HIGH_RISK, some "Environment secrets"⟩,
       ⟨"**/*.pem", .HIGH_RISK, some "Private key file"⟩,
       ⟨"**/*.key", .HIGH_RISK, some "Private key file"⟩,
       ⟨".git/**", .HIGH_RISK, some "Git internals"⟩,
       ⟨".ai/goal-guardian/**", .HIGH_RISK, some "Guardian runtime data"⟩,
       ⟨".cursor/goal-guardian/**", .ALLOWED, some "Guardian configuration"⟩,
       ⟨".cursor/hooks.json", .ALLOWED, some "Hooks configuration"⟩,
       ⟨".cursor/mcp.json", .ALLOWED, some "MCP configuration"⟩] }

/-- From `cli.ts` lines 649-664 (`classifySeverity`): first matching rule of
the ordered list wins; no rules or no match defaults to `PERMIT_REQUIRED`. -/
def classifyLoop (value : String) : List PolicyRule → PolicySeverity × Option PolicyRule
  | [] => (.PERMIT_REQUIRED, none)
  | r :: rest =>
    if minimatchDotNocase value r.pattern then (r.severity, some r)
    else classifyLoop value rest

def classifySeverity (rules : Option (List PolicyRule)) (value : String) :
    PolicySeverity × Option PolicyRule :=
  match rules with
  | none => (.PERMIT_REQUIRED, none)
  | some rs => if rs.isEmpty then (.PERMIT_REQUIRED, none) else classifyLoop value rs

/-! ### Hook data: contract, redux state, permits, responses (`cli.ts`) -/

/-- The hook's view of `state.json` (`ReduxState` in `cli.ts`), with the
JSON-shape guards (`Array.isArray`, `typeof === "string"`) collapsed into
their parsed results: a missing or non-array list field is `[]`, a missing
or null scalar is `none`. -/
structure ReduxTask where
  id : String
  title : Option String
  status : Option String
deriving DecidableEq

structure ReduxState where
  goal : Option String
  definition_of_done : List String
  constraints : List String
  active_task : Option String
  tasks : List ReduxTask
  pinned_context : List String
deriving DecidableEq

structure PermitAllow where
  shell : List String
  mcp : List String
  read : List String
  write : List String
deriving DecidableEq

structure Permit where
  token : String
  step_id : String
  issued_at : Int
  expires_at : Int
  allow : PermitAllow
deriving DecidableEq

structure PermitsDoc where
  permits : List Permit
deriving DecidableEq

/-- Stable descending insertion by `issued_at`, modelling
`valid.sort((a, b) => Date.parse(b.issued_at) - Date.parse(a.issued_at))`. -/
def insertByIssuedDesc (p : Permit) : List Permit → List Permit
  | [] => [p]
  | q :: rest =>
    if q.issued_at ≤ p.issued_at then p :: q :: rest else q :: insertByIssuedDesc p rest

def sortByIssuedDesc : List Permit → List Permit
  | [] => []
  | p :: rest => insertByIssuedDesc p (sortByIssuedDesc rest)

/-- From `cli.ts` lines 800-810 (`loadActivePermit`): drop expired permits,
sort the remainder most-recently-issued first, and return the head. -/
def loadActivePermit (doc : PermitsDoc) (now : Int) : Option Permit :=
  let valid := doc.permits.filter fun p => now < p.expires_at
  (sortByIssuedDesc valid).head?

structure GoalContextInfo where
  goal : String
  relevantCriteria : List String
deriving DecidableEq

structure WarnContext where
  warningCount : Nat
  maxWarnings : Nat
  suggestedAction : String
  goalContext : Option GoalContextInfo
deriving DecidableEq

/-- The JSON object the hook writes to stdout: `cont` is the `continue`
field, `warning` the `_warning` debug payload of `cursorResponseWarn`. -/
structure HookResponse where
  cont : Bool
  permission : String
  userMessage : Option String
  agentMessage : Option String
  warning : Option WarnContext
deriving DecidableEq

/-- From `cli.ts` lines 170-174. -/
def cursorResponseAllow (agentMessage : Option String) : HookResponse :=
  { cont := true, permission := "allow", userMessage := none, agentMessage := agentMessage,
    warning := none }

/-- From `cli.ts` lines 183-199: a warning is conveyed as an `allow` with
user and agent messages. -/
def cursorResponseWarn (userMessage agentMessage : String) (context : WarnContext) : HookResponse :=
  { cont := true, permission := "allow", userMessage := some userMessage,
    agentMessage := some agentMessage, warning := some context }

/-- From `cli.ts` lines 593-600 (`goalContextFromContract`). -/
def goalContextFromContract : Option GoalContract → Option GoalContextInfo
  | none => none
  | some c =>
    some { goal := c.goal
           relevantCriteria :=
             mapWithIdx (fun i t => "SC" ++ natToString (i + 1) ++ ": " ++ t) c.success_criteria }

/-- The replace of `/^(BLOCKED|HIGH-RISK|ADVISORY):\s*/i` in `blockOrWarn`. -/
def stripAdvisoryPrefix (s : String) : String :=
  let sl := strLower s
  let dropPfx : Nat → String := fun n => String.mk ((s.data.drop n).dropWhile isJsWhitespace)
  if strStartsWith sl "blocked:" then dropPfx 8
  else if strStartsWith sl "high-risk:" then dropPfx 10
  else if strStartsWith sl "advisory:" then dropPfx 9
  else s

/-- From `cli.ts` lines 602-620 (`blockOrWarn`): despite the name, always an
advisory warn response. -/
def blockOrWarn (policy : GoalGuardianPolicy) (contract : Option GoalContract)
    (userMessage agentMessage suggestedAction : String) : HookResponse :=
  cursorResponseWarn ("Warning: " ++ stripAdvisoryPrefix userMessage)
    (agentMessage ++ "\nAction allowed (advisory-only policy).")
    { warningCount := 0
      maxWarnings := policy.warningConfig.maxWarningsBeforeBlock
      suggestedAction := suggestedAction
      goalContext := goalContextFromContract contract }

/-! ### Scope-drift detector (`cli.ts` lines 277-591) -/

inductive ActionKind where
  | shell
  | mcp
  | read
  | write
deriving DecidableEq

def ActionKind.jsonName : ActionKind → String
  | .shell => "shell"
  | .mcp => "mcp"
  | .read => "read"
  | .write => "write"

def scopeStopWords : List String :=
  ["about", "again", "all", "also", "and", "are", "been", "being", "but", "can", "for",
   "from", "have", "into", "its", "just", "not", "off", "that", "the", "their", "then",
   "this", "those", "through", "with", "your"]

def genericTaskTerms : List String :=
  ["add", "app", "application", "build", "change", "component", "create", "feature",
   "fix", "implement", "module", "page", "project", "refactor", "simple", "support",
   "task", "tasks", "update", "work"]

def genericActionTerms : List String :=
  ["add", "awk", "bash", "cat", "cd", "check", "cmd", "command", "cp", "css", "curl",
   "delete", "dev", "diff", "docker", "echo", "file", "find", "git", "grep", "head",
   "install", "jest", "json", "js", "jsx", "lint", "log", "ls", "mcp", "mkdir", "move",
   "mv", "node", "npm", "npx", "package", "path", "pnpm", "pwd", "py", "python", "read",
   "remove", "rg", "run", "script", "sed", "sh", "shell", "src", "tail", "test", "tool",
   "touch", "ts", "tsx", "txt", "typecheck", "update", "vite", "write", "yarn"]

/-- Characters replaced by a space before tokenizing. -/
def isScopePunct (c : Char) : Bool :=
  c == '`' || c == '"' || c == '\x27' || c == '(' || c == ')' || c == '[' || c == ']' ||
    c == '\x7b' || c == '\x7d' || c == ':' || c == ',' || c == ';' || c == '='

/-- Characters the tokenizer splits on (`/[\s\/\\|._:-]+/`). -/
def isScopeSep (c : Char) : Bool :=
  isJsWhitespace c || c == '/' || c == '\\' || c == '|' || c == '.' || c == '_' ||
    c == ':' || c == '-'

def splitRuns (isSep : Char → Bool) : List Char → List (List Char)
  | [] => []
  | c :: rest =>
    if isSep c then splitRuns isSep rest
    else
      match splitRuns isSep rest with
      | [] => [[c]]
      | t :: ts =>
        match rest with
        | [] => [[c]]
        | r :: _ => if isSep r then [c] :: t :: ts else (c :: t) :: ts

def dedupKeep : List String → List String → List String
  | [], _ => []
  | s :: rest, seen =>
    if seen.contains s then dedupKeep rest seen else s :: dedupKeep rest (s :: seen)

/-- From `cli.ts` lines 396-414 (`tokenizeScope`). -/
def tokenizeScope (text : String) : List String :=
  let cleaned := (text.data.map charLower).map fun c => if isScopePunct c then ' ' else c
  let parts := (splitRuns isScopeSep cleaned).map String.mk
  dedupKeep
    (parts.filter fun token =>
      3 ≤ token.length && !(token.data.all charIsDigit))
    []

/-- From `cli.ts` lines 416-429 (`taskScopeTerms`). -/
def taskScopeTerms (parts : List String) : List String :=
  dedupKeep
    ((parts.flatMap tokenizeScope).filter fun token =>
      !scopeStopWords.contains token && !genericTaskTerms.contains token)
    []

/-- From `cli.ts` lines 431-442 (`actionScopeTerms`). -/
def actionScopeTerms (actionValue : String) : List String :=
  dedupKeep
    ((tokenizeScope actionValue).filter fun token =>
      !scopeStopWords.contains token && !genericActionTerms.contains token)
    []

def isWordChar (c : Char) : Bool :=
  charIsAlnum c || c == '_'

/-- Whether `tok` begins with the literal alternative `alt` at a regex word
boundary (`\b`). -/
def startsAlt (tok alt : String) : Bool :=
  strStartsWith tok alt &&
    (match tok.data.drop alt.length with
     | [] => true
     | c :: _ => !isWordChar c)

def jsWords (s : String) : List String :=
  (splitRuns isJsWhitespace s.data).map String.mk

/-- From `cli.ts` lines 444-455 (`isNeutralShellCommand`): the read-only /
package-manager regex whitelist, modelled over whitespace-split words with
regex word boundaries. -/
def isNeutralShellCommand (cmd : String) : Bool :=
  let c := strLower (strTrim cmd)
  if c == "" then true
  else
    let ws := jsWords c
    let w0 := ws.getD 0 ""
    let w1? := ws.get? 1
    let second (alts : List String) : Bool :=
      match w1? with
      | none => false
      | some w1 => alts.any fun alt => startsAlt w1 alt
    (w0 == "git" && second ["status", "diff", "log", "show", "branch", "rev-parse", "fetch", "pull"]) ||
    (["ls", "pwd", "echo", "cat", "head", "tail", "which", "type"].any fun alt => startsAlt w0 alt) ||
    ((w0 == "node" || w0 == "npm" || w0 == "pnpm" || w0 == "yarn") && second ["-v"]) ||
    ((w0 == "npm" || w0 == "pnpm" || w0 == "yarn") &&
      second ["install", "add", "remove", "uninstall", "up", "update"]) ||
    ((w0 == "npm" || w0 == "pnpm" || w0 == "yarn") &&
      (second ["test", "build", "lint", "typecheck", "dev", "start", "check"] ||
        (ws.get? 1 == some "run" &&
          (match ws.get? 2 with
           | none => false
           | some w2 =>
             ["test", "build", "lint", "typecheck", "dev", "start", "check"].any fun alt =>
               startsAlt w2 alt))))

def posixBasename (p : String) : String :=
  let cs := p.data.reverse.dropWhile fun c => c == '/'
  String.mk (cs.takeWhile fun c => c != '/').reverse

/-- From `cli.ts` lines 457-476 (`isNeutralReadPath`). -/
def isNeutralReadPath (rel : String) : Bool :=
  let p := strLower (strTrim rel)
  if p == "" then true
  else
    let base := posixBasename p
    base == "package.json" || base == "package-lock.json" || base == "pnpm-lock.yaml" ||
      base == "yarn.lock" || base == "readme.md" ||
      base == "tsconfig.json" ||
      (strStartsWith base "tsconfig." && strEndsWith base ".json") ||
      strStartsWith base "vite.config."

/-- From `cli.ts` lines 478-498 (`matchesPinnedContext`). -/
def matchesPinnedContext (state : ReduxState) (actionType : ActionKind) (actionValue : String) :
    Bool :=
  let pinned := state.pinned_context
  if pinned.isEmpty then false
  else
    let value := strLower actionValue
    if actionType == .read then
      pinned.any fun ctx =>
        let norm := String.mk ((strLower (strTrim ctx)).data.dropWhile fun c => c == '/')
        norm.length != 0 && (value == norm || strStartsWith value (norm ++ "/"))
    else if actionType == .shell then
      pinned.any fun ctx =>
        let norm := strLower (strTrim ctx)
        norm.length != 0 && infixOfChars norm.data value.data
    else false

def digitsToNat : List Char → Nat
  | [] => 0
  | c :: rest => digitsToNat rest + c.toNat % 48 * 10 ^ rest.length

/-- Match `/^pfx[_-]?(\d+)$/i` against `taskId` and return the number. -/
def parseIdNum (pfx : String) (s : String) : Option Nat :=
  let sl := strLower s
  if strStartsWith sl pfx then
    let rest := sl.data.drop pfx.length
    let rest :=
      match rest with
      | c :: cs => if c == '_' || c == '-' then cs else rest
      | [] => rest
    if rest.isEmpty then none
    else if rest.all charIsDigit then some (digitsToNat rest)
    else none
  else none

/-- From `cli.ts` lines 264-275 (`criterionTextForTask`). -/
def criterionTextForTask (state : ReduxState) (taskId : String) : Option String :=
  let criteria := state.definition_of_done
  if criteria.isEmpty then none
  else
    match (parseIdNum "sc" taskId).orElse fun _ => parseIdNum "task" taskId with
    | none => none
    | some n =>
      if n == 0 then none
      else
        match criteria.get? (n - 1) with
        | none => none
        | some text => if strTrim text == "" then none else some (strTrim text)

def activeTaskStatus (state : ReduxState) (activeTaskId : String) : Option String :=
  ((state.tasks.find? fun t => t.id == activeTaskId).bind fun t => t.status)

def activeTaskOf (state : ReduxState) (activeTaskId : String) : Option ReduxTask :=
  state.tasks.find? fun t => t.id == activeTaskId

/-- From `cli.ts` lines 515-520 (`normalizeScopeToken`). -/
def normalizeScopeToken (token : String) : String :=
  if strEndsWith token "ies" && 4 < token.length then
    String.mk (token.data.take (token.length - 3)) ++ "y"
  else if strEndsWith token "es" && 4 < token.length then
    String.mk (token.data.take (token.length - 2))
  else if strEndsWith token "s" && 4 < token.length then
    String.mk (token.data.take (token.length - 1))
  else token

/-- From `cli.ts` lines 522-544 (`hasScopeOverlap`). -/
def hasScopeOverlap (taskTerms actionTerms : List String) : Bool :=
  actionTerms.any fun actionToken =>
    taskTerms.contains actionToken ||
      (let normAction := normalizeScopeToken actionToken
       (taskTerms.zip (taskTerms.map normalizeScopeToken)).any fun tp =>
         normAction == tp.2 ||
           (5 ≤ normAction.length && 5 ≤ tp.2.length &&
             (strStartsWith normAction tp.2 || strStartsWith tp.2 normAction)) ||
           (6 ≤ actionToken.length && 6 ≤ tp.1.length &&
             (strStartsWith actionToken tp.1 || strStartsWith tp.1 actionToken)))

structure TaskScopeDrift where
  activeTaskId : String
  activeTaskTitle : String
  sensitivity : TaskScopeSensitivity
  confidence : String
  taskTerms : List String
  actionTerms : List String
deriving DecidableEq

/-- From `cli.ts` lines 509-513: the typed policy always carries a valid
sensitivity value. -/
def resolveTaskScopeSensitivity (policy : GoalGuardianPolicy) : TaskScopeSensitivity :=
  policy.taskScopeSensitivity

/-- From `cli.ts` lines 546-591 (`evaluateTaskScopeDrift`). -/
def evaluateTaskScopeDrift (policy : GoalGuardianPolicy) (state : Option ReduxState)
    (actionType : ActionKind) (actionValue : String) : Option TaskScopeDrift :=
  match state with
  | none => none
  | some st =>
    let activeTaskId := strTrim (st.active_task.getD "")
    if activeTaskId == "" then none
    else if actionType == .shell && isNeutralShellCommand actionValue then none
    else if actionType == .read && isNeutralReadPath actionValue then none
    else if actionType == .mcp && strStartsWith (strLower actionValue) "goal-guardian/" then none
    else if matchesPinnedContext st actionType actionValue then none
    else
      let task := activeTaskOf st activeTaskId
      let title := strTrim ((task.bind fun t => t.title).getD activeTaskId)
      if title == "" then none
      else
        let criterion := criterionTextForTask st activeTaskId
        let taskTextParts :=
          [title] ++ (match criterion with | some c => [c] | none => []) ++
            (match st.goal with
             | some g => if strTrim g != "" then [g] else []
             | none => [])
        let taskTerms := taskScopeTerms taskTextParts
        let actionTerms := actionScopeTerms actionValue
        let sensitivity := resolveTaskScopeSensitivity policy
        let minTaskTerms := if sensitivity == .strict then 1 else 2
        let minActionTerms :=
          if sensitivity == .strict then 1 else if sensitivity == .balanced then 2 else 3
        if taskTerms.length < minTaskTerms then none
        else if actionTerms.length < minActionTerms then none
        else if hasScopeOverlap taskTerms actionTerms then none
        else
          some { activeTaskId := activeTaskId
                 activeTaskTitle := title
                 sensitivity := sensitivity
                 confidence :=
                   if 4 ≤ actionTerms.length then "high"
                   else if actionTerms.length == 3 then "medium" else "low"
                 taskTerms := taskTerms.take 6
                 actionTerms := actionTerms.take 6 }

/-- From `cli.ts` lines 622-647 (`scopeWarn`). -/
def scopeWarn (policy : GoalGuardianPolicy) (contract : Option GoalContract)
    (actionType : ActionKind) (actionValue : String) (drift : TaskScopeDrift) : HookResponse :=
  let actionLabel :=
    if actionType == .mcp then "MCP call"
    else if actionType == .read then "file read" else "command"
  cursorResponseWarn
    ("Scope warning: " ++ actionLabel ++ " may be outside active task \"" ++
      drift.activeTaskTitle ++ "\".")
    (joinSep "\n"
      ["Active task: " ++ drift.activeTaskId ++ " (" ++ drift.activeTaskTitle ++ ")",
       "Scope mode: " ++
         (match drift.sensitivity with
          | .strict => "strict"
          | .balanced => "balanced"
          | .lenient => "lenient") ++ " (" ++ drift.confidence ++ " confidence mismatch)",
       "Task keywords: " ++ (let j := joinSep ", " drift.taskTerms; if j == "" then "n/a" else j),
       actionLabel ++ " keywords: " ++
         (let j := joinSep ", " drift.actionTerms; if j == "" then "n/a" else j),
       "Action seen: " ++ actionValue,
       "If intentional, switch active task first or record a decision for the switch."])
    { warningCount := 0
      maxWarnings := policy.warningConfig.maxWarningsBeforeBlock
      suggestedAction := "Switch state.active_task before running " ++ actionLabel ++ "."
      goalContext := goalContextFromContract contract }

/-! ### Action gate: preview results and the event handlers (`cli.ts`) -/

structure SuggestedPermitRequest where
  step : String
  maps_to : List String
  allow_field : String
  allow_pattern : String
deriving DecidableEq

/-- The JSON result of the remote `guardian_preview_action` capability call. -/
structure PreviewResult where
  wouldSucceed : Bool
  severity : PolicySeverity
  reason : String
  warningCount : Option Nat
  maxWarnings : Option Nat
  suggestedPermitRequest : Option SuggestedPermitRequest
deriving DecidableEq

/-- From `cli.ts` lines 666-686 (`buildRecoveryMessage`). -/
def buildRecoveryMessage (action : String) (contract : Option GoalContract)
    (suggestedPermitFields : String) : String :=
  let goalPart :=
    match contract with
    | some c =>
      if c.goal != "" then "Current goal: \"" ++ c.goal ++ "\"\n\n"
      else "No goal is set. Consider setting one first.\n\n"
    | none => "No goal is set. Consider setting one first.\n\n"
  goalPart ++ "To proceed:\n" ++
    "1. Call guardian_check_step with:\n" ++
    "   - step: \"Describe what this " ++ action ++ " accomplishes\"\n" ++
    "   - maps_to: [\"SC1\", ...] (relevant success criteria IDs)\n" ++
    "2. If approved, call guardian_issue_permit with:\n" ++
    "   - " ++ suggestedPermitFields ++ "\n" ++
    "3. Retry the command"

/-- From `cli.ts` lines 688-752 (`previewToResponse`). -/
def previewToResponse (preview : PreviewResult) (actionType : ActionKind)
    (actionValue : String) (policy : GoalGuardianPolicy) (contract : Option GoalContract) :
    HookResponse :=
  let maxWarnings := preview.maxWarnings.getD policy.warningConfig.maxWarningsBeforeBlock
  let warningCount := preview.warningCount.getD 0
  let suggested := preview.suggestedPermitRequest
  let suggestedAction :=
    match suggested with
    | some s => "Request a permit with " ++ s.allow_field ++ ": [\"" ++ s.allow_pattern ++ "\"]"
    | none => "Request a permit for " ++ actionType.jsonName
  let goalContext := goalContextFromContract contract
  if preview.severity == .HIGH_RISK then
    let agentMsg :=
      match suggested with
      | some s =>
        buildRecoveryMessage actionType.jsonName contract
          (s.allow_field ++ ": [\"" ++ s.allow_pattern ++ "\"]")
      | none => "High-risk action flagged by MCP policy. " ++ actionValue
    blockOrWarn policy contract preview.reason agentMsg suggestedAction
  else if preview.severity == .WARN then
    let warnMessage :=
      if preview.wouldSucceed then
        "Allowed with warning. " ++ natToString (maxWarnings - warningCount) ++
          " warnings remaining before escalation reminder."
      else "Warning limit reached. Action allowed, but a permit is strongly recommended."
    cursorResponseWarn preview.reason warnMessage
      { warningCount := warningCount, maxWarnings := maxWarnings,
        suggestedAction := suggestedAction, goalContext := goalContext }
  else if preview.severity == .PERMIT_REQUIRED && !preview.wouldSucceed then
    let agentMsg :=
      match suggested with
      | some s =>
        buildRecoveryMessage actionType.jsonName contract
          (s.allow_field ++ ": [\"" ++ s.allow_pattern ++ "\"]")
      | none => "Permit recommended for " ++ actionType.jsonName ++ ": " ++ actionValue
    cursorResponseWarn preview.reason agentMsg
      { warningCount := 0, maxWarnings := maxWarnings,
        suggestedAction := suggestedAction, goalContext := goalContext }
  else cursorResponseAllow none

/-- The shared Redux-control gate of the three `before*` handlers
(`cli.ts` lines 869-914 and its two copies): `none` means the gate passes,
`some resp` is the advisory early return. -/
def reduxControlGate (policy : GoalGuardianPolicy) (contract : Option GoalContract)
    (reduxState : Option ReduxState) (retryMsg : String) : Option HookResponse :=
  if !policy.enforceReduxControl then none
  else
    match reduxState with
    | none =>
      some (blockOrWarn policy contract
        "ADVISORY: Redux control requires .cursor/goal-guardian/state.json"
        "Initialize Goal Guardian state files, then retry."
        "Create .cursor/goal-guardian/state.json (via extension install).")
    | some st =>
      let activeTaskId := strTrim (st.active_task.getD "")
      if activeTaskId == "" then
        some (blockOrWarn policy contract "ADVISORY: No active Redux task."
          "Set success criteria in contract.json and let Goal Guardian auto-start a task, then retry."
          "Ensure state.active_task is set to a task in doing status.")
      else
        match activeTaskStatus st activeTaskId with
        | some status =>
          if status != "" && status != "doing" then
            some (blockOrWarn policy contract
              ("ADVISORY: Active task " ++ activeTaskId ++ " is not in doing state.")
              retryMsg "Mark the active task status as doing.")
          else none
        | none => none

/-- From `cli.ts` lines 862-1144: the `beforeShellExecution` branch of
`main`, as a function of the loaded policy, contract, redux state, active
permit, violation tracker, the optional remote preview result, and the
command.  Audit-log appends are side effects outside the returned value. -/
def handleBeforeShell (policy : GoalGuardianPolicy) (contract : Option GoalContract)
    (reduxState : Option ReduxState) (permit : Option Permit)
    (violations : ViolationTracker) (preview : Option PreviewResult) (cmd : String) :
    HookResponse × ViolationTracker :=
  if cmd == "" then (cursorResponseAllow none, violations)
  else
    match reduxControlGate policy contract reduxState
        "Ensure the active task is in progress before running commands." with
    | some resp => (resp, violations)
    | none =>
      match
        (if policy.enforceTaskScope then
          evaluateTaskScopeDrift policy reduxState .shell cmd
        else none) with
      | some drift => (scopeWarn policy contract .shell cmd drift, violations)
      | none =>
        match preview with
        | some pv => (previewToResponse pv .shell cmd policy contract, violations)
        | none =>
          let sr := classifySeverity policy.shellRules cmd
          let severity := sr.1
          let rule := sr.2
          if severity == .HIGH_RISK || globAny policy.highRiskPatterns.shell cmd then
            let reason := (rule.bind fun r => r.reason).getD "High-risk command pattern"
            (blockOrWarn policy contract ("HIGH-RISK: " ++ reason)
              ("Command \"" ++ cmd ++ "\" matches a high-risk advisory policy pattern.")
              ("Avoid command: " ++ cmd), violations)
          else if severity == .ALLOWED || globAny policy.alwaysAllow.shell cmd then
            (cursorResponseAllow none, violations)
          else if severity == .WARN then
            let matchedPattern := (rule.map fun r => r.pattern).getD cmd
            let currentCount := getWarningCount violations matchedPattern
            let maxWarnings := policy.warningConfig.maxWarningsBeforeBlock
            let reasonD := (rule.bind fun r => r.reason).getD "risky command"
            if maxWarnings ≤ currentCount then
              (cursorResponseWarn
                ("Warning (" ++ natToString currentCount ++ "/" ++ natToString maxWarnings ++ "): " ++
                  reasonD ++ " — limit reached, consider a permit")
                "Command allowed, but warning limit reached. Consider requesting a permit to keep actions aligned."
                { warningCount := currentCount, maxWarnings := maxWarnings,
                  suggestedAction := "Request a permit with allow_shell: [\"" ++ cmd ++ "\"]",
                  goalContext := goalContextFromContract contract }, violations)
            else
              let nc := incrementWarning violations matchedPattern
              let newCount := nc.1
              let warnMsg :=
                match policy.warningConfig.showGoalReminder, contract with
                | true, some c =>
                  "Warning (" ++ natToString newCount ++ "/" ++ natToString maxWarnings ++ "): " ++
                    reasonD ++ "\nGoal: \"" ++ c.goal ++ "\""
                | _, _ =>
                  "Warning (" ++ natToString newCount ++ "/" ++ natToString maxWarnings ++ "): " ++
                    reasonD
              (cursorResponseWarn warnMsg
                ("Command allowed with warning. " ++ natToString (maxWarnings - newCount) ++
                  " warnings remaining before escalation reminder.")
                { warningCount := newCount, maxWarnings := maxWarnings,
                  suggestedAction :=
                    "Request a permit with allow_shell: [\"" ++
                      (strSplitOn ' ' cmd).getD 0 "" ++ "*\"]",
                  goalContext := goalContextFromContract contract }, nc.2)
          else if !policy.requirePermitForShell then (cursorResponseAllow none, violations)
          else
            let goalLine :=
              match contract with
              | some c => c.goal
              | none => "No goal set"
            match permit with
            | none =>
              (cursorResponseWarn
                ("Goal check: \"" ++ goalLine ++ "\"\nPermit recommended for: " ++ cmd)
                (buildRecoveryMessage "shell command" contract
                  ("allow_shell: [\"" ++ cmd ++ "\"]"))
                { warningCount := 0, maxWarnings := policy.warningConfig.maxWarningsBeforeBlock,
                  suggestedAction := "Request a permit with allow_shell: [\"" ++ cmd ++ "\"]",
                  goalContext := goalContextFromContract contract }, violations)
            | some p =>
              if !globAny p.allow.shell cmd then
                (cursorResponseWarn
                  ("Goal check: \"" ++ goalLine ++ "\"\nPermit recommended for: " ++ cmd)
                  ("Permit exists but does not allow this command.\n\n" ++
                    buildRecoveryMessage "shell command" contract
                      ("allow_shell: [\"" ++ cmd ++ "\"]"))
                  { warningCount := 0, maxWarnings := policy.warningConfig.maxWarningsBeforeBlock,
                    suggestedAction := "Request a permit with allow_shell: [\"" ++ cmd ++ "\"]",
                    goalContext := goalContextFromContract contract }, violations)
              else (cursorResponseAllow none, violations)

/-- From `cli.ts` lines 1146-1417: the `beforeMCPExecution` branch, over the
composed key `server/tool`. -/
def handleBeforeMcp (policy : GoalGuardianPolicy) (contract : Option GoalContract)
    (reduxState : Option ReduxState) (permit : Option Permit)
    (violations : ViolationTracker) (preview : Option PreviewResult) (key : String) :
    HookResponse × ViolationTracker :=
  match reduxControlGate policy contract reduxState
      "Ensure the active task is in progress before running MCP tools." with
  | some resp => (resp, violations)
  | none =>
    match
      (if policy.enforceTaskScope then
        evaluateTaskScopeDrift policy reduxState .mcp key
      else none) with
    | some drift => (scopeWarn policy contract .mcp key drift, violations)
    | none =>
      match preview with
      | some pv => (previewToResponse pv .mcp key policy contract, violations)
      | none =>
        let sr := classifySeverity policy.mcpRules key
        let severity := sr.1
        let rule := sr.2
        if severity == .HIGH_RISK || globAny policy.highRiskPatterns.mcp key then
          let reason := (rule.bind fun r => r.reason).getD "High-risk MCP pattern"
          (blockOrWarn policy contract ("HIGH-RISK: " ++ reason)
            ("MCP call \"" ++ key ++ "\" matches a high-risk advisory policy pattern.")
            ("Avoid MCP call: " ++ key), violations)
        else if severity == .ALLOWED || globAny policy.alwaysAllow.mcp key then
          (cursorResponseAllow none, violations)
        else if severity == .WARN then
          let matchedPattern := (rule.map fun r => r.pattern).getD key
          let currentCount := getWarningCount violations matchedPattern
          let maxWarnings := policy.warningConfig.maxWarningsBeforeBlock
          let reasonD := (rule.bind fun r => r.reason).getD "MCP call requires attention"
          if maxWarnings ≤ currentCount then
            (cursorResponseWarn
              ("Warning (" ++ natToString currentCount ++ "/" ++ natToString maxWarnings ++ "): " ++
                reasonD ++ " — limit reached")
              "MCP call allowed, but warning limit reached. Consider requesting a permit."
              { warningCount := currentCount, maxWarnings := maxWarnings,
                suggestedAction := "Request a permit with allow_mcp: [\"" ++ key ++ "\"]",
                goalContext := goalContextFromContract contract }, violations)
          else
            let nc := incrementWarning violations matchedPattern
            let newCount := nc.1
            (cursorResponseWarn
              ("Warning (" ++ natToString newCount ++ "/" ++ natToString maxWarnings ++ "): " ++ reasonD)
              ("MCP call allowed with warning. " ++ natToString (maxWarnings - newCount) ++
                " warnings remaining.")
              { warningCount := newCount, maxWarnings := maxWarnings,
                suggestedAction := "Request a permit with allow_mcp: [\"" ++ key ++ "\"]",
                goalContext := goalContextFromContract contract }, nc.2)
        else if !policy.requirePermitForMcp then (cursorResponseAllow none, violations)
        else
          let goalLine :=
            match contract with
            | some c => c.goal
            | none => "No goal set"
          match permit with
          | none =>
            (cursorResponseWarn
              ("Goal check: \"" ++ goalLine ++ "\"\nPermit recommended for MCP: " ++ key)
              (buildRecoveryMessage "MCP call" contract ("allow_mcp: [\"" ++ key ++ "\"]"))
              { warningCount := 0, maxWarnings := policy.warningConfig.maxWarningsBeforeBlock,
                suggestedAction := "Request a permit with allow_mcp: [\"" ++ key ++ "\"]",
                goalContext := goalContextFromContract contract }, violations)
          | some p =>
            if !globAny p.allow.mcp key then
              (cursorResponseWarn
                ("Goal check: \"" ++ goalLine ++ "\"\nPermit recommended for MCP: " ++ key)
                ("Permit exists but does not allow this MCP call.\n\n" ++
                  buildRecoveryMessage "MCP call" contract ("allow_mcp: [\"" ++ key ++ "\"]"))
                { warningCount := 0, maxWarnings := policy.warningConfig.maxWarningsBeforeBlock,
                  suggestedAction := "Request a permit with allow_mcp: [\"" ++ key ++ "\"]",
                  goalContext := goalContextFromContract contract }, violations)
            else (cursorResponseAllow none, violations)

/-- From `cli.ts` lines 243-249 (`isBootstrapReadPath`). -/
def isBootstrapReadPath (rel : String) : Bool :=
  strStartsWith rel ".cursor/goal-guardian/" || rel == ".cursor/hooks.json" ||
    rel == ".cursor/mcp.json"

/-- From `cli.ts` lines 1419-1692: the `beforeReadFile` branch over the
normalized workspace-relative path. -/
def handleBeforeRead (policy : GoalGuardianPolicy) (contract : Option GoalContract)
    (reduxState : Option ReduxState) (permit : Option Permit)
    (violations : ViolationTracker) (preview : Option PreviewResult) (rel : String) :
    HookResponse × ViolationTracker :=
  if rel == "" then (cursorResponseAllow none, violations)
  else
    match
      (if isBootstrapReadPath rel then none
       else
        reduxControlGate policy contract reduxState
          "Ensure the active task is in progress before reading workspace files.") with
    | some resp => (resp, violations)
    | none =>
      match
        (if policy.enforceTaskScope && !isBootstrapReadPath rel then
          evaluateTaskScopeDrift policy reduxState .read rel
        else none) with
      | some drift => (scopeWarn policy contract .read rel drift, violations)
      | none =>
        match preview with
        | some pv => (previewToResponse pv .read rel policy contract, violations)
        | none =>
          let sr := classifySeverity policy.readRules rel
          let severity := sr.1
          let rule := sr.2
          if severity == .HIGH_RISK || globAny policy.highRiskPatterns.read rel then
            let reason := (rule.bind fun r => r.reason).getD "High-risk file access pattern"
            (blockOrWarn policy contract ("HIGH-RISK: " ++ reason)
              ("Reading \"" ++ rel ++ "\" matches a high-risk advisory policy pattern.")
              ("Avoid reading: " ++ rel), violations)
          else if severity == .ALLOWED || globAny policy.alwaysAllow.read rel then
            (cursorResponseAllow none, violations)
          else if severity == .WARN then
            let matchedPattern := (rule.map fun r => r.pattern).getD rel
            let currentCount := getWarningCount violations matchedPattern
            let maxWarnings := policy.warningConfig.maxWarningsBeforeBlock
            let reasonD := (rule.bind fun r => r.reason).getD "file access requires attention"
            if maxWarnings ≤ currentCount then
              (cursorResponseWarn
                ("Warning (" ++ natToString currentCount ++ "/" ++ natToString maxWarnings ++ "): " ++
                  reasonD ++ " — limit reached")
                "File read allowed, but warning limit reached. Consider requesting a permit."
                { warningCount := currentCount, maxWarnings := maxWarnings,
                  suggestedAction := "Request a permit with allow_read: [\"" ++ rel ++ "\"]",
                  goalContext := goalContextFromContract contract }, violations)
            else
              let nc := incrementWarning violations matchedPattern
              let newCount := nc.1
              (cursorResponseWarn
                ("Warning (" ++ natToString newCount ++ "/" ++ natToString maxWarnings ++ "): " ++
                  reasonD)
                ("File read allowed with warning. " ++ natToString (maxWarnings - newCount) ++
                  " warnings remaining.")
                { warningCount := newCount, maxWarnings := maxWarnings,
                  suggestedAction := "Request a permit with allow_read: [\"" ++ rel ++ "\"]",
                  goalContext := goalContextFromContract contract }, nc.2)
          else if !policy.requirePermitForRead then (cursorResponseAllow none, violations)
          else
            let goalLine :=
              match contract with
              | some c => c.goal
              | none => "No goal set"
            match permit with
            | none =>
              (cursorResponseWarn
                ("Goal check: \"" ++ goalLine ++ "\"\nPermit recommended for read: " ++ rel)
                (buildRecoveryMessage "file read" contract ("allow_read: [\"" ++ rel ++ "\"]"))
                { warningCount := 0, maxWarnings := policy.warningConfig.maxWarningsBeforeBlock,
                  suggestedAction := "Request a permit with allow_read: [\"" ++ rel ++ "\"]",
                  goalContext := goalContextFromContract contract }, violations)
            | some p =>
              if !globAny p.allow.read rel then
                (cursorResponseWarn
                  ("Goal check: \"" ++ goalLine ++ "\"\nPermit recommended for read: " ++ rel)
                  ("Permit exists but does not allow reading " ++ rel ++ ".\n\n" ++
                    buildRecoveryMessage "file read" contract ("allow_read: [\"" ++ rel ++ "\"]"))
                  { warningCount := 0, maxWarnings := policy.warningConfig.maxWarningsBeforeBlock,
                    suggestedAction := "Request a permit with allow_read: [\"" ++ rel ++ "\"]",
                    goalContext := goalContextFromContract contract }, violations)
              else (cursorResponseAllow none, violations)

/-! ### Action gate: the per-invocation stdin/stdout loop (`cli.ts` `main`) -/

/-- The parsed stdin payload of one hook invocation.  Each field is the JSON
value at that key (`none` when absent). -/
structure HookPayload where
  hook_event_name : Option Json
  hookEventName : Option Json
  event : Option Json
  name : Option Json
  command : Option Json
  server : Option Json
  tool_name : Option Json
  file_path : Option Json

/-- From `cli.ts` lines 102-115 (`resolveHookEventName`): the first key
holding a non-blank string, else `"unknown"`. -/
def firstEventKey : List (Option Json) → String
  | [] => "unknown"
  | some (.str s) :: rest => if strTrim s == "" then firstEventKey rest else s
  | _ :: rest => firstEventKey rest

def resolveHookEventName (p : HookPayload) : String :=
  firstEventKey [p.hook_event_name, p.hookEventName, p.event, p.name]

/-- JavaScript `String(v ?? "")` over an optional JSON field. -/
def jsOptString : Option Json → String
  | none => ""
  | some .null => ""
  | some j => jsToString j

/-- `toPosixRel` is the identity on a POSIX host (`path.sep = "/"`);
the subsequent `.replace(/^\/+/, "")` strips leading slashes. -/
def normalizeRelPath (p : String) : String :=
  String.mk (p.data.dropWhile fun c => c == '/')

/-- From `cli.ts` lines 829-1727 (`main` and its fatal catch): one hook
invocation after config loading, as a function of the loaded policy,
contract, redux state, permits document, violation tracker, optional remote
preview result, the wall clock, and the parsed stdin payload (`none` models
malformed JSON on stdin).  Returns the single JSON response written to
stdout together with the persisted violation tracker; audit-log appends and
the best-effort git revert of `afterFileEdit` are side effects outside the
returned value. -/
def runHook (policy : GoalGuardianPolicy) (contract : Option GoalContract)
    (reduxState : Option ReduxState) (permitsDoc : PermitsDoc)
    (violations0 : ViolationTracker) (preview : Option PreviewResult) (nowMs : Int)
    (payload : Option HookPayload) : HookResponse × ViolationTracker :=
  match payload with
  | none =>
    (cursorResponseAllow (some "Goal-Guardian hook: invalid JSON payload; allowing."),
      violations0)
  | some p =>
    let eventName := resolveHookEventName p
    let permit := loadActivePermit permitsDoc nowMs
    let violations :=
      if shouldResetWarnings violations0 policy.warningConfig.warningResetMinutes nowMs then
        resetWarnings violations0 nowMs
      else violations0
    if eventName == "beforeShellExecution" then
      handleBeforeShell policy contract reduxState permit violations preview (jsOptString p.command)
    else if eventName == "beforeMCPExecution" then
      let server := let s := strTrim (jsOptString p.server); if s == "" then "unknown" else s
      let tool := let s := strTrim (jsOptString p.tool_name); if s == "" then "unknown" else s
      handleBeforeMcp policy contract reduxState permit violations preview (server ++ "/" ++ tool)
    else if eventName == "beforeReadFile" || eventName == "beforeTabFileRead" then
      handleBeforeRead policy contract reduxState permit violations preview
        (normalizeRelPath (jsOptString p.file_path))
    else if eventName == "afterFileEdit" || eventName == "afterTabFileEdit" then
      (cursorResponseAllow none, violations)
    else (cursorResponseAllow none, violations)

/-! ### Permit authority (`cursor-goal-guardian-mcp/src/index.ts`)

Permit timestamps (`issued_at`, `expires_at`, record `ts`) travel through
`Date.parse`, so they are modelled by their epoch-millisecond values. -/

structure CheckRecord where
  step_id : String
  step : String
  rationale : Option String
  expected_output : String
  maps_to : List String
  on_goal : Bool
  score : QNum
  reason : String
  suggested_revision : Option String
  ts : Int
deriving DecidableEq

structure ChecksDoc where
  checks : List CheckRecord
deriving DecidableEq

structure ProgressEntry where
  step_id : String
  result_summary : String
  evidence_refs : List String
  ts : Int
deriving DecidableEq

structure ProgressDoc where
  progress : List ProgressEntry
deriving DecidableEq

/-- From `index.ts` lines 140-145 (`criteriaIds`): `SC1`, `SC2`, … by
criterion position. -/
def criteriaIds (contract : GoalContract) : List (String × String) :=
  mapWithIdx (fun i text => ("SC" ++ natToString (i + 1), text)) contract.success_criteria

/-- From `index.ts` lines 147-151 (`validateMapsTo`). -/
def validateMapsTo (contract : GoalContract) (mapsTo : List String) : Bool × List String :=
  let ids := (criteriaIds contract).map fun x => x.1
  let missing := mapsTo.filter fun m => !ids.contains m
  (missing.isEmpty, missing)

structure RubricResult where
  on_goal : Bool
  score : QNum
  reason : String
  suggested_revision : Option String
deriving DecidableEq

/-- From `index.ts` lines 153-204 (`stepRubric`): non-empty goal and
criteria required, `maps_to` must name known criterion ids, a lexical
scope-creep screen, then approval with score 1. -/
def stepRubric (contract : GoalContract) (step : String) (maps_to : List String) :
    RubricResult :=
  if strTrim contract.goal == "" then
    { on_goal := false, score := ⟨0, 1⟩
      reason := "No goal is set. Initialize contract first (guardian_initialize_contract)."
      suggested_revision :=
        some "Call guardian_initialize_contract with a concrete goal and success criteria." }
  else if (criteriaIds contract).isEmpty then
    { on_goal := false, score := ⟨0, 1⟩
      reason := "No success criteria are set. Add at least 1 success criterion (guardian_initialize_contract)."
      suggested_revision := some "Add success criteria so steps can map to SC1/SC2/..." }
  else
    let vm := validateMapsTo contract maps_to
    if !vm.1 then
      { on_goal := false, score := ⟨1, 5⟩
        reason := "maps_to contains unknown success criteria IDs: " ++ joinSep ", " vm.2 ++ "."
        suggested_revision :=
          some ("Pick from: " ++ joinSep ", " ((criteriaIds contract).map fun c => c.1) ++ ".") }
    else
      let stepLower := strLower step
      if ["also", "by the way", "extra", "bonus", "while we\x27re at it"].any
          (fun w => strContainsSub stepLower w) then
        { on_goal := false, score := ⟨2, 5⟩
          reason := "Step looks like scope expansion. Keep steps tight and map each to explicit success criteria."
          suggested_revision :=
            some "Rewrite the step to do exactly one thing that maps to specific success criteria." }
      else
        { on_goal := true, score := ⟨1, 1⟩
          reason := "Step maps to valid success criteria IDs."
          suggested_revision := none }

/-- From `index.ts` lines 283-324 (`guardian_check_step` handler): record
the rubric verdict under a fresh `step_id`, unshifted onto `checks.json`. -/
def guardianCheckStep (env : Env) (contract : GoalContract) (checksDoc : ChecksDoc)
    (now : Int) (step : String) (rationale : Option String) (expected_output : String)
    (maps_to : List String) (k : Nat) : CheckRecord × ChecksDoc × Nat :=
  let verdict := stepRubric contract step maps_to
  let (sid, k1) := newId env "step" k
  let record : CheckRecord :=
    { step_id := sid, step := step, rationale := rationale,
      expected_output := expected_output, maps_to := maps_to,
      on_goal := verdict.on_goal, score := verdict.score, reason := verdict.reason,
      suggested_revision := verdict.suggested_revision, ts := now }
  (record, { checks := record :: checksDoc.checks }, k1)

/-- From `index.ts` lines 206-210 (`permitDocPruneExpired`). -/
def permitDocPruneExpired (doc : PermitsDoc) (now : Int) : PermitsDoc :=
  { permits := doc.permits.filter fun p => now < p.expires_at }

/-- The outcome of `guardian_issue_permit`: a refusal text or a minted
permit (the handler returns these as JSON text contents). -/
inductive IssueOutcome where
  | unknownStep (msg : String)
  | notApproved (msg : String)
  | minted (permit : Permit)
deriving DecidableEq

/-- From `index.ts` lines 326-393 (`guardian_issue_permit` handler): refuse
when the step_id has no check record, or the record is off-goal or scores
below the 0.6 approval threshold; otherwise mint a token, prune expired
permits and unshift the new one.  The zod input schema bounds
`ttl_seconds` to 30..3600 before the handler runs. -/
def guardianIssuePermit (env : Env) (checksDoc : ChecksDoc) (permitsDoc : PermitsDoc)
    (now : Int) (step_id : String) (ttl_seconds : Nat)
    (allow_shell allow_mcp allow_read allow_write : List String) (k : Nat) :
    IssueOutcome × PermitsDoc × Nat :=
  match checksDoc.checks.find? fun c => c.step_id == step_id with
  | none =>
    (.unknownStep ("❌ Unknown step_id: " ++ step_id ++ ". Run guardian_check_step first."),
      permitsDoc, k)
  | some check =>
    if !check.on_goal || qLt check.score ⟨3, 5⟩ then
      (.notApproved ("❌ Step is not approved. Reason: " ++ check.reason), permitsDoc, k)
    else
      let (token, k1) := newId env "permit" k
      let permit : Permit :=
        { token := token, step_id := step_id, issued_at := now,
          expires_at := now + (ttl_seconds : Int) * 1000,
          allow :=
            { shell := allow_shell, mcp := allow_mcp, read := allow_read,
              write := allow_write } }
      let pruned := permitDocPruneExpired permitsDoc now
      (.minted permit, { permits := permit :: pruned.permits }, k1)

/-- From `index.ts` lines 395-436 (`guardian_commit_result` handler):
unshift a progress entry and revoke every permit tied to the step_id. -/
def guardianCommitResult (progressDoc : ProgressDoc) (permitsDoc : PermitsDoc) (now : Int)
    (step_id : String) (result_summary : String) (evidence_refs : List String) :
    ProgressDoc × PermitsDoc :=
  ({ progress :=
      { step_id := step_id, result_summary := result_summary,
        evidence_refs := evidence_refs, ts := now } :: progressDoc.progress },
    { permits := permitsDoc.permits.filter fun perm => perm.step_id != step_id })

/-! ### Claim-support definitions -/

/-- A fresh workspace (no guardian files on disk) whose rules file holds the
given configuration; with `rulesDoc := some defaultRules` this is exactly the
store the first dispatch of a fresh workspace sees after seeding. -/
def initialStore (r : RulesConfig) : Store :=
  { stateDoc := none, actionsDoc := none, rulesDoc := some r, snapshotDoc := none,
    contractDoc := none }

/-- The stores reachable from a fresh workspace through successful
dispatches of the built-in (JSON) reducer, under arbitrary ambient clocks
and id draws. -/
inductive ReachableStore (r : RulesConfig) : Store → Prop where
  | init : ReachableStore r (initialStore r)
  | step {s s' : Store} {draft : ActionDraft} {env : Env} {k k' : Nat} {st : AgentState} :
      ReachableStore r s →
      dispatchAction env none s draft k = (s', .ok st, k') →
      ReachableStore r s'

/-- The number of tasks whose status is `doing`. -/
def countDoing (tasks : List AgentTask) : Nat :=
  (tasks.filter fun t => t.status == .doing).length

/-- The active-task consistency invariant the engine actually maintains:
whenever `active_task` is set, a task with that id exists and is `doing`. -/
def activeTaskConsistent (s : AgentState) : Prop :=
  ∀ id, s.active_task = some id → ∃ t ∈ s.tasks, t.id = id ∧ t.status = .doing

/-- A store whose three engine-managed files already exist, so that
`ensureStateStoreFiles` has nothing to create. -/
def Store.initialized (s : Store) : Prop :=
  s.stateDoc.isSome ∧ s.actionsDoc.isSome ∧ s.rulesDoc.isSome

/-- Everything of an `AgentState` except the two restamped meta fields
(`lastUpdated` and the content hash). -/
def AgentState.core (s : AgentState) :=
  (s.goal, s.definition_of_done, s.constraints, s.active_task, s.tasks, s.queue,
    s.open_questions, s.decisions, s.pinned_context, s._meta.lastActionId,
    s._meta.actionCount)

/-- Whether every task element of an `ADD_TASKS` payload carries its own
non-null `id` (so the replay draws no fresh ids). -/
def addTasksElemsHaveIds : List Json → Bool
  | [] => true
  | .null :: _ => false
  | t :: rest =>
    (match jsGetField t "id" with
     | none => false
     | some .null => false
     | some _ => true) && addTasksElemsHaveIds rest

def exceptIsOk : Except ε α → Bool
  | .ok _ => true
  | .error _ => false

/-- Action types whose replay draws neither a timestamp nor a fresh id into
the resulting state (the final `lastUpdated` stamp excepted): every type
except `OPEN_QUESTION` and `ADD_DECISION`, with `ADD_TASKS` only when each
of its task elements carries its own id. -/
def actionIdFree (a : AgentAction) : Bool :=
  if a.type == "ADD_TASKS" then
    match jsGetField a.payload "tasks" with
    | some (.arr xs) => addTasksElemsHaveIds xs
    | _ => true
  else
    a.type == "SET_GOAL" || a.type == "START_TASK" || a.type == "COMPLETE_TASK" ||
      a.type == "CLOSE_QUESTION" || a.type == "PIN_CONTEXT" || a.type == "UNPIN_CONTEXT"

/-- A redux state with one active `doing` task whose single-word title keeps
the scope-drift detector quiet (fewer task terms than the balanced-mode
minimum), so shell events reach severity classification. -/
def loginRedux : ReduxState :=
  { goal := none, definition_of_done := [], constraints := [],
    active_task := some "t1",
    tasks := [{ id := "t1", title := some "Login", status := some "doing" }],
    pinned_context := [] }

/-- A `beforeShellExecution` stdin payload for `git reset --hard`, a command
the default policy classifies `WARN` (pattern `git reset --hard*`). -/
def warnShellPayload : HookPayload :=
  { hook_event_name := some (.str "beforeShellExecution"), hookEventName := none,
    event := none, name := none, command := some (.str "git reset --hard"),
    server := none, tool_name := none, file_path := none }

/-- One gate invocation of the warning-escalation scenario: default policy,
no contract, no permits, no remote preview. -/
def warnRun (v : ViolationTracker) (now : Int) : HookResponse × ViolationTracker :=
  runHook defaultPolicy none (some loginRedux) ⟨[]⟩ v none now (some warnShellPayload)

def warnRun1 : HookResponse × ViolationTracker := warnRun ⟨[], 0⟩ 1000
def warnRun2 : HookResponse × ViolationTracker := warnRun warnRun1.2 2000
def warnRun3 : HookResponse × ViolationTracker := warnRun warnRun2.2 3000
def warnRun4 : HookResponse × ViolationTracker := warnRun warnRun3.2 4000
def warnRun5 : HookResponse × ViolationTracker := warnRun warnRun4.2 3600000

/-- The default policy with permit enforcement for shell commands switched
on (`requirePermitForShell: true` in `policy.json`). -/
def permitEnforcingPolicy : GoalGuardianPolicy :=
  { defaultPolicy with requirePermitForShell := true }

/-- An older, still-unexpired permit scoped to the command `pnpm test`. -/
def permitOldMatching : Permit :=
  { token := "permit_a", step_id := "step_1", issued_at := 1000, expires_at := 1000000,
    allow := { shell := ["pnpm test"], mcp := [], read := [], write := [] } }

/-- A newer, still-unexpired permit scoped to a different command. -/
def permitNewOther : Permit :=
  { token := "permit_b", step_id := "step_2", issued_at := 2000, expires_at := 1000000,
    allow := { shell := ["git push"], mcp := [], read := [], write := [] } }

def twoPermitsDoc : PermitsDoc := ⟨[permitNewOther, permitOldMatching]⟩

/-- The permit-gated shell run of the C9 scenario: enforcement on, command
`pnpm test` (classified `PERMIT_REQUIRED` by the default rules), both
permits of `twoPermitsDoc` unexpired at time 5000. -/
def permitGateRun : HookResponse × ViolationTracker :=
  handleBeforeShell permitEnforcingPolicy none (some loginRedux)
    (loadActivePermit twoPermitsDoc 5000) ⟨[], 0⟩ none "pnpm test"

/-- A concrete environment for witnesses: distinct, recognisable stream
values per call index. -/
def idEnv : Env := ⟨fun k => "T" ++ natToString k, fun k => "r" ++ natToString k⟩

/-- An approved check record (`on_goal = true`, `score = 1`). -/
def approvedCheck : CheckRecord :=
  { step_id := "step_ok", step := "Wire the auth call", rationale := none,
    expected_output := "auth call wired", maps_to := ["SC1"], on_goal := true,
    score := ⟨1, 1⟩, reason := "Step maps to valid success criteria IDs.",
    suggested_revision := none, ts := 0 }

/-- An unapproved check record (scope-creep screen: `score = 0.4`). -/
def rejectedCheck : CheckRecord :=
  { step_id := "step_bad", step := "also refactor everything", rationale := none,
    expected_output := "n/a", maps_to := ["SC1"], on_goal := false,
    score := ⟨2, 5⟩,
    reason := "Step looks like scope expansion. Keep steps tight and map each to explicit success criteria.",
    suggested_revision := none, ts := 0 }

def witnessChecksDoc : ChecksDoc := ⟨[approvedCheck, rejectedCheck]⟩

/-! ### Claim support: decision-gated task switch (two-task scenario) -/

/-- The default rules with the strict content-hash check switched off; the
three invariants keep their default (enabled) values. -/
def c1Rules : RulesConfig := { defaultRules with strictMode := false }

def c1Task1 : AgentTask := { id := "t1", title := "First", status := .doing }

def c1Task2 : AgentTask := { id := "t2", title := "Second", status := .todo }

/-- A state with task `t1` `doing` and active, task `t2` `todo`, and no
decisions. -/
def c1State0 : AgentState :=
  { schemaVersion := 1, goal := "g", definition_of_done := [], constraints := [],
    active_task := some "t1", tasks := [c1Task1, c1Task2], queue := ["t2"],
    open_questions := [], decisions := [], pinned_context := [],
    _meta := { lastActionId := none, lastUpdated := "T", actionCount := 0, hash := "" } }

def c1Store0 : Store :=
  { stateDoc := some c1State0, actionsDoc := some [], rulesDoc := some c1Rules,
    snapshotDoc := none, contractDoc := none }

/-- `START_TASK(t2)` as dispatched, with no `decision_id` in the payload. -/
def c1StartDraft : ActionDraft :=
  { id := some "a1", ts := some "TS1", actor := none, type := "START_TASK",
    payload := some (.obj [("taskId", .str "t2")]) }

def c1DecisionDraft : ActionDraft :=
  { id := some "a2", ts := some "TS2", actor := none, type := "ADD_DECISION",
    payload := some (.obj [("text", .str "switch to t2"), ("rationale", .str "t2 is next")]) }

/-- `START_TASK(t2)` as a fully-formed action, with no `decision_id`. -/
def c1StartAction : AgentAction :=
  { id := "a1", ts := "TS1", actor := .agent, type := "START_TASK",
    payload := .obj [("taskId", .str "t2")] }

/-- `c1State0` with one recorded decision `d1`. -/
def c1StateWithDec : AgentState :=
  { c1State0 with decisions := [{ id := "d1", text := "switch", rationale := "next", ts := "T" }] }

/-- `START_TASK(t2)` whose payload names the recorded decision `d1`. -/
def c1StartDecAction : AgentAction :=
  { id := "a3", ts := "TS3", actor := .agent, type := "START_TASK",
    payload := .obj [("taskId", .str "t2"), ("decision_id", .str "d1")] }

/-- An action draft with an unknown type and a well-formed (object) payload,
so that the reducer itself rejects it. -/
def c3BogusDraft : ActionDraft :=
  { id := some "b1", ts := some "TB", actor := none, type := "BOGUS",
    payload := some (.obj []) }

/-- The two-task state with its stored content hash replaced by a value the
engine never produces (`computeHash` always returns 64 hex characters). -/
def c4State : AgentState :=
  { c1State0 with _meta := { c1State0._meta with hash := "tampered" } }

def c4Store : Store :=
  { stateDoc := some c4State, actionsDoc := some [], rulesDoc := some defaultRules,
    snapshotDoc := none, contractDoc := none }

/-- The two-task state stored under the default (strict) rules with a blank
`_meta.hash`, as a hand-edited document would carry after the hash line was
deleted. -/
def c4BlankStore : Store :=
  { stateDoc := some c1State0, actionsDoc := some [], rulesDoc := some defaultRules,
    snapshotDoc := none, contractDoc := none }

def c4UnpinDraft : ActionDraft :=
  { id := some "u1", ts := some "TU", actor := none, type := "UNPIN_CONTEXT",
    payload := some (.obj []) }

/-- `ADD_TASKS` with two explicitly-identified tasks `t1`, `t2`. -/
def c2AddDraft : ActionDraft :=
  { id := some "c1", ts := some "TC1", actor := none, type := "ADD_TASKS",
    payload := some (.obj [("tasks", .arr
      [.obj [("id", .str "t1"), ("title", .str "A")],
       .obj [("id", .str "t2"), ("title", .str "B")]])]) }

def c2Start1Draft : ActionDraft :=
  { id := some "c2", ts := some "TC2", actor := none, type := "START_TASK",
    payload := some (.obj [("taskId", .str "t1")]) }

def c2DecDraft : ActionDraft :=
  { id := some "c3", ts := some "TC3", actor := none, type := "ADD_DECISION",
    payload := some (.obj [("text", .str "switch"), ("rationale", .str "next")]) }

/-- `START_TASK(t2)` naming the decision the previous dispatch recorded
(`newId` draws `dec_r1` from `idEnv` at counter 1). -/
def c2Start2Draft : ActionDraft :=
  { id := some "c4", ts := some "TC4", actor := none, type := "START_TASK",
    payload := some (.obj [("taskId", .str "t2"), ("decision_id", .str "dec_r1")]) }

def c2Store1 : Store := (dispatchAction idEnv none (initialStore c1Rules) c2AddDraft 0).1

def c2Store2 : Store := (dispatchAction idEnv none c2Store1 c2Start1Draft 0).1

def c2Store3 : Store := (dispatchAction idEnv none c2Store2 c2DecDraft 0).1

def c2Store4 : Store := (dispatchAction idEnv none c2Store3 c2Start2Draft 0).1

def c2WitnessState : AgentState := c2Store1.stateDoc.getD c1State0

/-- A store each of whose persisted state documents satisfies the
active-task consistency invariant. -/
def StoreConsistent (s : Store) : Prop :=
  ∀ st, s.stateDoc = some st → activeTaskConsistent st

/-- A second ambient environment whose clock and id streams differ from
`idEnv`, standing for a re-run of the same command at a later time. -/
def c5EnvB : Env := ⟨fun k => "U" ++ natToString k, fun k => "s" ++ natToString k⟩

/-! ## Theorems

Helper lemmas first, then one theorem per claim, each with its witness or
counterexample beside it. -/

theorem reduxControlGate_warn {p : GoalGuardianPolicy} {c : Option GoalContract}
    {rs : Option ReduxState} {m : String} {r : HookResponse}
    (h : reduxControlGate p c rs m = some r) :
    r.permission = "allow" ∧ r.cont = true ∧ r.userMessage.isSome = true := by
  simp only [reduxControlGate, blockOrWarn, cursorResponseWarn] at h
  repeat' split at h
  all_goals first
    | exact Option.noConfusion h
    | (injection h with h2; subst h2; exact ⟨rfl, rfl, rfl⟩)

theorem previewToResponse_allows (pv : PreviewResult) (t : ActionKind) (v : String)
    (pol : GoalGuardianPolicy) (c : Option GoalContract) :
    (previewToResponse pv t v pol c).permission = "allow" ∧
      (previewToResponse pv t v pol c).cont = true := by
  simp only [previewToResponse]
  repeat' split
  all_goals exact ⟨rfl, rfl⟩

theorem handleBeforeShell_allows (policy : GoalGuardianPolicy) (contract : Option GoalContract)
    (reduxState : Option ReduxState) (permit : Option Permit) (violations : ViolationTracker)
    (preview : Option PreviewResult) (cmd : String) :
    (handleBeforeShell policy contract reduxState permit violations preview cmd).1.permission =
        "allow" ∧
      (handleBeforeShell policy contract reduxState permit violations preview cmd).1.cont =
        true := by
  simp only [handleBeforeShell]
  repeat' split
  all_goals try exact ⟨rfl, rfl⟩
  all_goals try exact previewToResponse_allows _ _ _ _ _
  all_goals rename_i heq
  all_goals try (split at heq)
  all_goals first
    | exact Option.noConfusion heq
    | exact ⟨(reduxControlGate_warn heq).1, (reduxControlGate_warn heq).2.1⟩

theorem handleBeforeMcp_allows (policy : GoalGuardianPolicy) (contract : Option GoalContract)
    (reduxState : Option ReduxState) (permit : Option Permit) (violations : ViolationTracker)
    (preview : Option PreviewResult) (key : String) :
    (handleBeforeMcp policy contract reduxState permit violations preview key).1.permission =
        "allow" ∧
      (handleBeforeMcp policy contract reduxState permit violations preview key).1.cont =
        true := by
  simp only [handleBeforeMcp]
  repeat' split
  all_goals try exact ⟨rfl, rfl⟩
  all_goals try exact previewToResponse_allows _ _ _ _ _
  all_goals rename_i heq
  all_goals try (split at heq)
  all_goals first
    | exact Option.noConfusion heq
    | exact ⟨(reduxControlGate_warn heq).1, (reduxControlGate_warn heq).2.1⟩

theorem handleBeforeRead_allows (policy : GoalGuardianPolicy) (contract : Option GoalContract)
    (reduxState : Option ReduxState) (permit : Option Permit) (violations : ViolationTracker)
    (preview : Option PreviewResult) (rel : String) :
    (handleBeforeRead policy contract reduxState permit violations preview rel).1.permission =
        "allow" ∧
      (handleBeforeRead policy contract reduxState permit violations preview rel).1.cont =
        true := by
  simp only [handleBeforeRead]
  repeat' split
  all_goals try exact ⟨rfl, rfl⟩
  all_goals try exact previewToResponse_allows _ _ _ _ _
  all_goals rename_i heq
  all_goals try (split at heq)
  all_goals first
    | exact Option.noConfusion heq
    | exact ⟨(reduxControlGate_warn heq).1, (reduxControlGate_warn heq).2.1⟩

/-- C10: the Action Gate never emits a deny: for every policy, contract,
redux state, permits document, violation tracker, preview outcome, wall
clock, and stdin payload (including malformed JSON, modelled by `none`), the
single JSON response of `runHook` has `continue = true` and
`permission = "allow"`; the value `"deny"` is unreachable. -/
theorem runHook_never_denies (policy : GoalGuardianPolicy) (contract : Option GoalContract)
    (reduxState : Option ReduxState) (permitsDoc : PermitsDoc)
    (violations0 : ViolationTracker) (preview : Option PreviewResult) (nowMs : Int)
    (payload : Option HookPayload) :
    (runHook policy contract reduxState permitsDoc violations0 preview nowMs payload).1.permission =
        "allow" ∧
      (runHook policy contract reduxState permitsDoc violations0 preview nowMs payload).1.cont =
        true := by
  simp only [runHook]
  repeat' split
  all_goals first
    | exact ⟨rfl, rfl⟩
    | exact handleBeforeShell_allows _ _ _ _ _ _ _
    | exact handleBeforeMcp_allows _ _ _ _ _ _ _
    | exact handleBeforeRead_allows _ _ _ _ _ _ _


/-- C7: HIGH_RISK is advisory-only: for every policy, contract, redux state,
permit and tracker, any non-empty shell command whose local classification
is `HIGH_RISK` (no remote preview in play) yields a verdict that still lets
the action proceed — `continue = true`, `permission = "allow"` — and carries
a human-visible `userMessage`; it is never a silent block or a deny. -/
theorem highRisk_is_advisory (policy : GoalGuardianPolicy) (contract : Option GoalContract)
    (reduxState : Option ReduxState) (permit : Option Permit) (violations : ViolationTracker)
    (cmd : String) (hcmd : cmd ≠ "")
    (hclass : (classifySeverity policy.shellRules cmd).1 = .HIGH_RISK) :
    (handleBeforeShell policy contract reduxState permit violations none cmd).1.permission =
        "allow" ∧
      (handleBeforeShell policy contract reduxState permit violations none cmd).1.cont = true ∧
      (handleBeforeShell policy contract reduxState permit violations none cmd).1.userMessage.isSome =
        true := by
  simp only [handleBeforeShell]
  repeat' split
  all_goals try exact ⟨rfl, rfl, rfl⟩
  all_goals simp_all [classifySeverity]
  all_goals rename_i heq
  all_goals try (split at heq)
  all_goals first
    | exact Option.noConfusion heq
    | exact reduxControlGate_warn heq

/-- Witness for C7 at the spec's own example: `"rm -rf /"` under the default
policy classifies `HIGH_RISK`, and the verdict still allows with a visible
warning. -/
theorem highRisk_is_advisory_witness :
    (handleBeforeShell defaultPolicy none none none ⟨[], 0⟩ none "rm -rf /").1.permission =
        "allow" ∧
      (handleBeforeShell defaultPolicy none none none ⟨[], 0⟩ none "rm -rf /").1.cont = true ∧
      (handleBeforeShell defaultPolicy none none none ⟨[], 0⟩ none "rm -rf /").1.userMessage.isSome =
        true :=
  highRisk_is_advisory defaultPolicy none none none ⟨[], 0⟩ "rm -rf /" (by decide) (by decide)

/-- C6 counterexample: after exactly three consecutive WARN classifications
of `git reset --hard` within the reset window, the tracker's counter for the
matched pattern is 3 — but the third response's messaging has NOT switched
to "limit reached" (it is the ordinary `Warning (3/3)` escalation); the
switch only happens from the fourth classification on. -/
theorem warn_escalation_counterexample :
    getWarningCount warnRun3.2 "git reset --hard*" = 3 ∧
      strContainsSub (warnRun3.1.userMessage.getD "") "limit reached" = false ∧
      strContainsSub (warnRun3.1.agentMessage.getD "") "limit reached" = false ∧
      warnRun3.1.userMessage = some "Warning (3/3): Destructive git operation" := by decide

/-- C6 (amended): three consecutive WARN classifications of the same pattern
within the reset window escalate the counter 1, 2, 3 with `Warning (n/3)`
messages; the "limit reached" messaging appears from the fourth
classification onward, which no longer increments the counter; and once the
reset window (60 minutes) has elapsed, the whole counter map is cleared
before classification, so the next classification reports count 1, not 4. -/
theorem warn_escalation_and_decay :
    (warnRun1.1.userMessage = some "Warning (1/3): Destructive git operation" ∧
      getWarningCount warnRun1.2 "git reset --hard*" = 1) ∧
    (warnRun2.1.userMessage = some "Warning (2/3): Destructive git operation" ∧
      getWarningCount warnRun2.2 "git reset --hard*" = 2) ∧
    (warnRun3.1.userMessage = some "Warning (3/3): Destructive git operation" ∧
      getWarningCount warnRun3.2 "git reset --hard*" = 3) ∧
    (warnRun4.1.userMessage =
        some "Warning (3/3): Destructive git operation — limit reached, consider a permit" ∧
      getWarningCount warnRun4.2 "git reset --hard*" = 3) ∧
    (warnRun5.1.userMessage = some "Warning (1/3): Destructive git operation" ∧
      getWarningCount warnRun5.2 "git reset --hard*" = 1 ∧
      warnRun5.2.warningCounts = [("git reset --hard*", 1)]) := by decide

/-- C9 counterexample: with permit enforcement on and `pnpm test` classified
`PERMIT_REQUIRED`, a currently valid permit whose shell glob matches the
command exists (`permitOldMatching`), yet the verdict is not the plain
allow: only the most recently issued valid permit (`permitNewOther`, which
does not match) is ever consulted. -/
theorem permit_gating_counterexample :
    (permitOldMatching ∈ twoPermitsDoc.permits ∧ (5000 : Int) < permitOldMatching.expires_at ∧
      globAny permitOldMatching.allow.shell "pnpm test" = true) ∧
      permitGateRun.1 ≠ cursorResponseAllow none ∧
      permitGateRun.1.userMessage.isSome = true := by decide

/-- C9 (amended): when permit enforcement is on and the local classification
of a non-empty shell command is `PERMIT_REQUIRED` (no high-risk or
always-allow pattern matches, the redux gate passes, no scope drift, no
remote preview), the verdict is the plain allow if and only if the most
recently issued unexpired permit exists and its shell glob list matches the
command — older valid permits are never consulted; otherwise the warn
verdict carries the structured suggestion naming `allow_shell` with the
exact command and the goal/criteria context derived from the contract. -/
theorem permit_required_gating (policy : GoalGuardianPolicy) (contract : Option GoalContract)
    (reduxState : Option ReduxState) (doc : PermitsDoc) (now : Int)
    (violations : ViolationTracker) (cmd : String)
    (hreq : policy.requirePermitForShell = true) (hcmd : cmd ≠ "")
    (hgate : reduxControlGate policy contract reduxState
      "Ensure the active task is in progress before running commands." = none)
    (hdrift : (if policy.enforceTaskScope = true then
        evaluateTaskScopeDrift policy reduxState .shell cmd
      else none) = none)
    (hclass : (classifySeverity policy.shellRules cmd).1 = .PERMIT_REQUIRED)
    (hhr : globAny policy.highRiskPatterns.shell cmd = false)
    (haa : globAny policy.alwaysAllow.shell cmd = false) :
    ((handleBeforeShell policy contract reduxState (loadActivePermit doc now) violations none
          cmd).1 = cursorResponseAllow none ↔
        ∃ p, loadActivePermit doc now = some p ∧ globAny p.allow.shell cmd = true) ∧
      (∀ w,
        (handleBeforeShell policy contract reduxState (loadActivePermit doc now) violations none
              cmd).1.warning = some w →
          w.suggestedAction = "Request a permit with allow_shell: [\"" ++ cmd ++ "\"]" ∧
            w.goalContext = goalContextFromContract contract) ∧
      ((handleBeforeShell policy contract reduxState (loadActivePermit doc now) violations none
            cmd).1 ≠ cursorResponseAllow none →
        (handleBeforeShell policy contract reduxState (loadActivePermit doc now) violations none
              cmd).1.userMessage.isSome = true) := by
  have h0 : (cmd == "") = false := by simp [hcmd]
  have hc1 : (((classifySeverity policy.shellRules cmd).1 == PolicySeverity.HIGH_RISK) ||
      globAny policy.highRiskPatterns.shell cmd) = false := by rw [hclass, hhr]; rfl
  have hc2 : (((classifySeverity policy.shellRules cmd).1 == PolicySeverity.ALLOWED) ||
      globAny policy.alwaysAllow.shell cmd) = false := by rw [hclass, haa]; rfl
  have hc3 : ((classifySeverity policy.shellRules cmd).1 == PolicySeverity.WARN) = false := by
    rw [hclass]; rfl
  simp only [handleBeforeShell, h0, hgate, hdrift, hc1, hc2, hc3, hreq, Bool.false_eq_true,
    Bool.not_true, if_false]
  cases hp : loadActivePermit doc now with
  | none =>
    simp only [Bool.false_eq_true, if_false, cursorResponseWarn, cursorResponseAllow]
    refine ⟨?_, ?_, ?_⟩
    · constructor
      · intro h; exact absurd (congrArg HookResponse.userMessage h) (by simp)
      · rintro ⟨p, hp2, _⟩; exact Option.noConfusion hp2
    · intro w hw
      rw [Option.some.injEq] at hw
      subst hw
      exact ⟨rfl, rfl⟩
    · intro _; trivial
  | some p =>
    by_cases hg : globAny p.allow.shell cmd = true
    · simp only [hg, Bool.not_true, Bool.false_eq_true, if_false, cursorResponseAllow]
      refine ⟨?_, ?_, ?_⟩
      · exact ⟨fun _ => ⟨p, rfl, hg⟩, fun _ => trivial⟩
      · intro w hw; exact Option.noConfusion hw
      · intro h; exact absurd rfl h
    · have hg' : globAny p.allow.shell cmd = false := by
        cases hgb : globAny p.allow.shell cmd
        · rfl
        · exact absurd hgb hg
      simp only [hg', Bool.not_false, if_true, cursorResponseWarn, cursorResponseAllow]
      refine ⟨?_, ?_, ?_⟩
      · constructor
        · intro h; exact absurd (congrArg HookResponse.userMessage h) (by simp)
        · rintro ⟨q, hq, hq2⟩
          rw [Option.some.injEq] at hq
          subst hq
          exact absurd hq2 hg
      · intro w hw
        rw [Option.some.injEq] at hw
        subst hw
        exact ⟨rfl, rfl⟩
      · intro _; trivial

/-- Witness for C9 (amended): the concrete two-permit scenario instantiates
the theorem; the newest valid permit does not match `pnpm test`, so the
verdict is the structured permit suggestion, not the plain allow. -/
theorem permit_required_gating_witness :
    permitGateRun.1 = cursorResponseAllow none ↔
      ∃ p, loadActivePermit twoPermitsDoc 5000 = some p ∧
        globAny p.allow.shell "pnpm test" = true :=
  (permit_required_gating permitEnforcingPolicy none (some loginRedux) twoPermitsDoc 5000
    ⟨[], 0⟩ "pnpm test" (by decide) (by decide) (by decide) (by decide) (by decide) (by decide)
    (by decide)).1

theorem mem_insertByIssuedDesc {q p : Permit} {l : List Permit}
    (h : q ∈ insertByIssuedDesc p l) : q = p ∨ q ∈ l := by
  induction l with
  | nil => simpa [insertByIssuedDesc] using h
  | cons x xs ih =>
    unfold insertByIssuedDesc at h
    split at h
    · simpa using h
    · rcases List.mem_cons.mp h with h1 | h1
      · exact Or.inr (List.mem_cons.mpr (Or.inl h1))
      · rcases ih h1 with h2 | h2
        · exact Or.inl h2
        · exact Or.inr (List.mem_cons.mpr (Or.inr h2))

theorem mem_sortByIssuedDesc {q : Permit} {l : List Permit}
    (h : q ∈ sortByIssuedDesc l) : q ∈ l := by
  induction l with
  | nil => simpa [sortByIssuedDesc] using h
  | cons x xs ih =>
    unfold sortByIssuedDesc at h
    rcases mem_insertByIssuedDesc h with h1 | h1
    · exact h1 ▸ List.mem_cons_self _ _
    · exact List.mem_cons.mpr (Or.inr (ih h1))

theorem loadActivePermit_mem {doc : PermitsDoc} {now : Int} {p : Permit}
    (h : loadActivePermit doc now = some p) : p ∈ doc.permits ∧ now < p.expires_at := by
  simp only [loadActivePermit] at h
  have hmem : p ∈ sortByIssuedDesc (doc.permits.filter fun q => now < q.expires_at) := by
    cases hs : sortByIssuedDesc (doc.permits.filter fun q => now < q.expires_at) with
    | nil => rw [hs] at h; exact Option.noConfusion h
    | cons a rest =>
      rw [hs] at h
      simp only [List.head?] at h
      rw [Option.some.injEq] at h
      subst h
      exact List.mem_cons_self _ _
  have h2 := mem_sortByIssuedDesc hmem
  have h3 := List.mem_filter.mp h2
  exact ⟨h3.1, by simpa using h3.2⟩

/-- C8: the permit lifecycle.  (1) `guardian_issue_permit` refuses to mint a
token — and leaves the permits document untouched — for any `step_id` whose
check record is missing, has `on_goal = false`, or scores below the 0.6
approval threshold.  (2) For an approved record it mints a permit tied to
that `step_id` whose `allow.shell` list is exactly the requested glob list
(so whatever command the globs were scoped for matches), expiring at
`now + ttl·1000`, unshifted onto the pruned document.  (3) After
`guardian_commit_result(step_id)` no permit tied to that `step_id` remains
in the document, and (4) no subsequent `loadActivePermit` lookup can return
one. -/
theorem permit_lifecycle :
    (∀ (env : Env) (checks : ChecksDoc) (permits : PermitsDoc) (now : Int) (sid : String)
        (ttl : Nat) (aS aM aR aW : List String) (k : Nat),
      ((checks.checks.find? fun c => c.step_id == sid) = none ∨
        ∃ c, (checks.checks.find? fun c => c.step_id == sid) = some c ∧
          (c.on_goal = false ∨ qLt c.score ⟨3, 5⟩ = true)) →
      (∀ p, (guardianIssuePermit env checks permits now sid ttl aS aM aR aW k).1 ≠ .minted p) ∧
        (guardianIssuePermit env checks permits now sid ttl aS aM aR aW k).2.1 = permits) ∧
    (∀ (env : Env) (checks : ChecksDoc) (permits : PermitsDoc) (now : Int) (sid : String)
        (ttl : Nat) (aS aM aR aW : List String) (k : Nat) (c : CheckRecord),
      (checks.checks.find? fun c => c.step_id == sid) = some c →
      c.on_goal = true → qLt c.score ⟨3, 5⟩ = false →
      ∃ p, (guardianIssuePermit env checks permits now sid ttl aS aM aR aW k).1 = .minted p ∧
        p.step_id = sid ∧ p.allow.shell = aS ∧ p.expires_at = now + (ttl : Int) * 1000 ∧
        (guardianIssuePermit env checks permits now sid ttl aS aM aR aW k).2.1.permits =
          p :: (permitDocPruneExpired permits now).permits ∧
        ∀ cmd, globAny aS cmd = true → globAny p.allow.shell cmd = true) ∧
    (∀ (progress : ProgressDoc) (permits : PermitsDoc) (now : Int) (sid rs : String)
        (er : List String) (p : Permit),
      p ∈ (guardianCommitResult progress permits now sid rs er).2.permits → p.step_id ≠ sid) ∧
    (∀ (progress : ProgressDoc) (permits : PermitsDoc) (now : Int) (sid rs : String)
        (er : List String) (t : Int) (p : Permit),
      loadActivePermit (guardianCommitResult progress permits now sid rs er).2 t = some p →
        p.step_id ≠ sid) := by
  refine ⟨?_, ?_, ?_, ?_⟩
  · intro env checks permits now sid ttl aS aM aR aW k h
    rcases h with h | ⟨c, hc, hbad⟩
    · simp only [guardianIssuePermit, h]
      exact ⟨fun p hne => IssueOutcome.noConfusion hne, trivial⟩
    · have hcond : (!c.on_goal || qLt c.score ⟨3, 5⟩) = true := by
        rcases hbad with hb | hb
        · rw [hb]; rfl
        · rw [hb]; simp
      simp only [guardianIssuePermit, hc, hcond, if_true]
      exact ⟨fun p hne => IssueOutcome.noConfusion hne, trivial⟩
  · intro env checks permits now sid ttl aS aM aR aW k c hc hon hscore
    have hcond : (!c.on_goal || qLt c.score ⟨3, 5⟩) = false := by rw [hon, hscore]; rfl
    simp only [guardianIssuePermit, hc, hcond, Bool.false_eq_true, if_false]
    refine ⟨_, rfl, rfl, rfl, rfl, rfl, ?_⟩
    intro cmd h
    exact h
  · intro progress permits now sid rs er p hp
    have := (List.mem_filter.mp hp).2
    simpa [bne_iff_ne] using this
  · intro progress permits now sid rs er t p hp
    have hm := (loadActivePermit_mem hp).1
    have := (List.mem_filter.mp hm).2
    simpa [bne_iff_ne] using this

/-- Witness for C8: with a concrete checks document, issuing against an
unknown step and a rejected step mints nothing and leaves the permits file
unchanged; the approved step mints a permit whose shell globs match the
exact command they were scoped for; and after committing that step the
permit is gone from lookups. -/
theorem permit_lifecycle_witness :
    ((∀ p, (guardianIssuePermit idEnv witnessChecksDoc ⟨[]⟩ 1000 "step_missing" 600 ["pnpm test"]
        [] [] [] 0).1 ≠ .minted p) ∧
      (guardianIssuePermit idEnv witnessChecksDoc ⟨[]⟩ 1000 "step_missing" 600 ["pnpm test"]
        [] [] [] 0).2.1 = ⟨[]⟩) ∧
    ((∀ p, (guardianIssuePermit idEnv witnessChecksDoc ⟨[]⟩ 1000 "step_bad" 600 ["pnpm test"]
        [] [] [] 0).1 ≠ .minted p)) ∧
    (∃ p, (guardianIssuePermit idEnv witnessChecksDoc ⟨[]⟩ 1000 "step_ok" 600 ["pnpm test"]
        [] [] [] 0).1 = .minted p ∧ p.step_id = "step_ok" ∧
        globAny p.allow.shell "pnpm test" = true) ∧
    (∀ p, p ∈ (guardianCommitResult ⟨[]⟩
        (guardianIssuePermit idEnv witnessChecksDoc ⟨[]⟩ 1000 "step_ok" 600 ["pnpm test"]
          [] [] [] 0).2.1 2000 "step_ok" "done" []).2.permits → p.step_id ≠ "step_ok") := by
  refine ⟨?_, ?_, ?_, ?_⟩
  · exact permit_lifecycle.1 idEnv witnessChecksDoc ⟨[]⟩ 1000 "step_missing" 600 ["pnpm test"]
      [] [] [] 0 (Or.inl (by decide))
  · exact (permit_lifecycle.1 idEnv witnessChecksDoc ⟨[]⟩ 1000 "step_bad" 600 ["pnpm test"]
      [] [] [] 0 (Or.inr ⟨rejectedCheck, by decide, Or.inl (by decide)⟩)).1
  · obtain ⟨p, h1, h2, h3, _, _, h6⟩ :=
      permit_lifecycle.2.1 idEnv witnessChecksDoc ⟨[]⟩ 1000 "step_ok" 600 ["pnpm test"]
        [] [] [] 0 approvedCheck (by decide) (by decide) (by decide)
    exact ⟨p, h1, h2, h6 "pnpm test" (by decide)⟩
  · intro p hp
    exact permit_lifecycle.2.2.1 ⟨[]⟩ _ 2000 "step_ok" "done" [] p hp

/-- C1 counterexample: from a state with `t1` `doing`/active and `t2` `todo`
under the default invariants, `START_TASK(t2)` without a `decision_id` fails;
dispatching `ADD_DECISION` succeeds; but the very same `START_TASK(t2)`
dispatch afterwards still fails, because the gate looks for a decision whose
id equals the payload's `decision_id` (absent here), not for the mere
existence of a decision. -/
theorem start_task_gate_counterexample :
    (dispatchAction idEnv none c1Store0 c1StartDraft 0).2.1
        = .error "Decision required to switch active task." ∧
    exceptIsOk (dispatchAction idEnv none c1Store0 c1DecisionDraft 0).2.1 = true ∧
    (dispatchAction idEnv none (dispatchAction idEnv none c1Store0 c1DecisionDraft 0).1
        c1StartDraft 0).2.1 = .error "Decision required to switch active task." :=
  ⟨rfl, rfl, rfl⟩

/-- C1 (amended): with single-active-task and decision-for-switch invariants
enabled, `START_TASK` on an existing task while another task is active fails
when no recorded decision matches the payload's `decision_id` (1); when the
payload's `decision_id` names a recorded decision the dispatch succeeds, the
named task becomes active and its status is set to `doing` (2); and the
previously active task is left in the task list unchanged — in particular it
keeps its `doing` status rather than reverting (3). -/
theorem start_task_decision_gate :
    (∀ (env : Env) (st : AgentState) (a : AgentAction) (rules : RulesConfig) (k : Nat)
        (tk : AgentTask),
      a.type = "START_TASK" →
      rules.invariants.singleActiveTask = true →
      rules.invariants.requireDecisionForTaskSwitch = true →
      st.tasks.find? (fun t => t.id == jsStringOr a.payload "taskId" "") = some tk →
      (match st.active_task with | none => false | some x => x != "") = true →
      (st.active_task != some (jsStringOr a.payload "taskId" "")) = true →
      (st.decisions.any fun d => d.id == jsStringOr a.payload "decision_id" "") = false →
      applyActionJson env st a rules k = .error "Decision required to switch active task.") ∧
    (∀ (env : Env) (st : AgentState) (a : AgentAction) (rules : RulesConfig) (k : Nat)
        (tk : AgentTask),
      a.type = "START_TASK" →
      st.tasks.find? (fun t => t.id == jsStringOr a.payload "taskId" "") = some tk →
      (st.decisions.any fun d => d.id == jsStringOr a.payload "decision_id" "") = true →
      ∃ next k2,
        applyActionJson env st a rules k = .ok (next, k2) ∧
        next.active_task = some (jsStringOr a.payload "taskId" "") ∧
        next.tasks = setFirstTaskStatus (jsStringOr a.payload "taskId" "") .doing st.tasks) ∧
    (∀ (tid : String) (stat : AgentTaskStatus) (tasks : List AgentTask) (t : AgentTask),
      t ∈ tasks → (t.id == tid) = false → t ∈ setFirstTaskStatus tid stat tasks) := by
  refine ⟨?_, ?_, ?_⟩
  · intro env st a rules k tk htype hsingle hreq hfind htruthy hne hdec
    obtain ⟨aid, ats, aactor, atype, apayload⟩ := a
    simp only at htype hfind hdec hne
    subst htype
    simp only [applyActionJson]
    rw [hfind]
    simp only [htruthy, hsingle, hreq, hne, hdec, Bool.true_and, Bool.and_true,
      Bool.not_false, Bool.and_self]
    rfl
  · intro env st a rules k tk htype hfind hdec
    obtain ⟨aid, ats, aactor, atype, apayload⟩ := a
    simp only at htype hfind hdec
    subst htype
    simp only [applyActionJson]
    rw [hfind]
    simp only [hdec, Bool.not_true, Bool.and_false, Bool.false_eq_true, if_false]
    exact ⟨_, _, rfl, rfl, rfl⟩
  · intro tid stat tasks t hmem hne
    induction tasks with
    | nil => exact absurd hmem (List.not_mem_nil t)
    | cons x rest ih =>
      rcases List.mem_cons.mp hmem with h | h
      · subst h
        simp only [setFirstTaskStatus, hne]
        exact List.mem_cons_self _ _
      · simp only [setFirstTaskStatus]
        split
        · exact List.mem_cons_of_mem _ h
        · exact List.mem_cons_of_mem _ (ih h)

/-- Witness for C1: the gate theorem applied to the concrete two-task
scenario. -/
theorem start_task_decision_gate_witness :
    (applyActionJson idEnv c1State0 c1StartAction defaultRules 0
        = .error "Decision required to switch active task.") ∧
    (∃ next k2,
      applyActionJson idEnv c1StateWithDec c1StartDecAction defaultRules 0 = .ok (next, k2) ∧
      next.active_task = some "t2" ∧
      next.tasks = setFirstTaskStatus "t2" .doing c1StateWithDec.tasks) ∧
    c1Task1 ∈ setFirstTaskStatus "t2" .doing c1State0.tasks :=
  ⟨start_task_decision_gate.1 idEnv c1State0 c1StartAction defaultRules 0 c1Task2
      rfl rfl rfl rfl rfl rfl rfl,
    start_task_decision_gate.2.1 idEnv c1StateWithDec c1StartDecAction defaultRules 0 c1Task2
      rfl rfl rfl,
    start_task_decision_gate.2.2 "t2" .doing c1State0.tasks c1Task1
      (List.mem_cons_self _ _) rfl⟩

theorem ensure_initialized (env : Env) (s : Store) (k : Nat) (h : s.initialized) :
    ensureStateStoreFiles env s k = (s, k) := by
  obtain ⟨h1, h2, h3⟩ := h
  obtain ⟨st, hst⟩ := Option.isSome_iff_exists.mp h1
  have ha : s.actionsDoc.isNone = false := by
    rcases hA : s.actionsDoc with _ | x
    · rw [hA] at h2; exact absurd h2 (by simp)
    · rfl
  have hr : s.rulesDoc.isNone = false := by
    rcases hR : s.rulesDoc with _ | x
    · rw [hR] at h3; exact absurd h3 (by simp)
    · rfl
  simp only [ensureStateStoreFiles, hst, ha, hr, Bool.false_eq_true, if_false]

theorem dispatch_store_char (env : Env)
    (jsReducer : Option (AgentState → AgentAction → AgentState))
    (s : Store) (d : ActionDraft) (k : Nat) (h : s.initialized) :
    (dispatchAction env jsReducer s d k).1 = s ∨
      exceptIsOk (dispatchAction env jsReducer s d k).2.1 = true := by
  have he := ensure_initialized env s k h
  simp only [dispatchAction, he]
  split
  · exact Or.inl rfl
  · split
    · exact Or.inl rfl
    · exact Or.inr rfl

/-- C3 (amended): once the three store files exist, a failing dispatch — be
it the strict-mode hash refusal, a malformed payload, an unknown action type
or an invariant violation — returns the store exactly as it was: no state
write, no action-log append, no contract sync, no snapshot. -/
theorem dispatch_error_atomicity :
    ∀ (env : Env) (jsReducer : Option (AgentState → AgentAction → AgentState))
      (s : Store) (d : ActionDraft) (k : Nat),
      s.initialized →
      exceptIsOk (dispatchAction env jsReducer s d k).2.1 = false →
      (dispatchAction env jsReducer s d k).1 = s := by
  intro env jsR s d k hinit hfail
  rcases dispatch_store_char env jsR s d k hinit with h | h
  · exact h
  · rw [hfail] at h
    exact Bool.noConfusion h

/-- Witness for C3: the initialized two-task store is returned unchanged by
a dispatch of the unknown action type `BOGUS`. -/
theorem dispatch_error_atomicity_witness :
    c1Store0.initialized ∧
    exceptIsOk (dispatchAction idEnv none c1Store0 c3BogusDraft 0).2.1 = false ∧
    (dispatchAction idEnv none c1Store0 c3BogusDraft 0).1 = c1Store0 :=
  ⟨⟨rfl, rfl, rfl⟩, rfl,
    dispatch_error_atomicity idEnv none c1Store0 c3BogusDraft 0 ⟨rfl, rfl, rfl⟩ rfl⟩

/-- C3 counterexample: on a fresh workspace (no state, actions or rules
files), dispatching an unknown action type fails — yet the returned store
has a freshly seeded state document, because `ensureStateStoreFiles` creates
the missing files before the action is validated.  Something IS persisted by
a failing dispatch. -/
theorem dispatch_atomicity_counterexample :
    (initialStore c1Rules).stateDoc.isSome = false ∧
    exceptIsOk (dispatchAction idEnv none (initialStore c1Rules) c3BogusDraft 0).2.1 = false ∧
    (dispatchAction idEnv none (initialStore c1Rules) c3BogusDraft 0).1.stateDoc.isSome = true :=
  ⟨rfl, rfl, rfl⟩

theorem roundStep_length (st : List Nat) (kw : Nat × Nat) :
    (roundStep st kw).length = st.length := by
  unfold roundStep
  split <;> rfl

theorem foldl_roundStep_length (l : List (Nat × Nat)) :
    ∀ st : List Nat, (l.foldl roundStep st).length = st.length := by
  induction l with
  | nil => intro st; rfl
  | cons x rest ih =>
    intro st
    rw [List.foldl_cons, ih, roundStep_length]

theorem sha256compress_length (hs block : List Nat) (h : hs.length = 8) :
    (sha256compress hs block).length = 8 := by
  unfold sha256compress
  rw [List.length_map, List.length_zip, foldl_roundStep_length, h]
  decide

theorem foldl_compress_length (blocks : List (List Nat)) :
    ∀ hs : List Nat, hs.length = 8 → (blocks.foldl sha256compress hs).length = 8 := by
  induction blocks with
  | nil => intro hs h; exact h
  | cons b rest ih =>
    intro hs h
    rw [List.foldl_cons]
    exact ih _ (sha256compress_length hs b h)

theorem foldr_wordToHex_length (hs : List Nat) :
    (hs.foldr (fun w acc => wordToHex w ++ acc) []).length = 8 * hs.length := by
  induction hs with
  | nil => rfl
  | cons x rest ih =>
    rw [List.foldr_cons, List.length_append, ih, List.length_cons]
    have : (wordToHex x).length = 8 := rfl
    rw [this]
    ring

theorem sha256hex_length (s : String) : (sha256hex s).length = 64 := by
  have hmk : ∀ l : List Char, (String.mk l).length = l.length := fun l => rfl
  have hlen : (List.foldl sha256compress sha256h0
      (sha256chunks (padMessage (utf8Bytes s)))).length = 8 :=
    foldl_compress_length _ _ rfl
  show (String.mk (List.foldr (fun w acc => wordToHex w ++ acc) []
      (List.foldl sha256compress sha256h0 (sha256chunks (padMessage (utf8Bytes s)))))).length = 64
  rw [hmk, foldr_wordToHex_length, hlen]

/-- Every hash the engine computes is 64 hex characters long; used to show
that short hand-edited hash values can never equal a recomputed hash. -/
theorem computeHash_length (s : AgentState) : (computeHash s).length = 64 :=
  sha256hex_length _

/-- C4 (amended): the strict-mode guard fires exactly when the stored hash is
non-empty and differs from the recomputed one: such a dispatch returns the
concurrent-modification error, leaves the initialized store untouched and
applies nothing.  (A blank stored hash bypasses the guard; see the
counterexample.) -/
theorem hash_integrity_guard :
    ∀ (env : Env) (jsReducer : Option (AgentState → AgentAction → AgentState))
      (s : Store) (d : ActionDraft) (k : Nat) (st : AgentState),
      s.stateDoc = some st →
      (loadRules s).strictMode = true →
      s.initialized →
      st._meta.hash ≠ "" →
      st._meta.hash ≠ computeHash st →
      dispatchAction env jsReducer s d k =
        (s, .error "State file was edited manually. Rebuild state before dispatching new actions.",
          k + 1) := by
  intro env jsR s d k st hst hrules hinit hne hne2
  have he := ensure_initialized env s k hinit
  have h1 : (st._meta.hash != "") = true := bne_iff_ne.mpr hne
  have h2 : (st._meta.hash != computeHash st) = true := bne_iff_ne.mpr hne2
  simp only [dispatchAction, he, loadState, defaultState, nowIso, hst, Option.getD_some,
    hrules, h1, h2, Bool.and_self, Bool.true_and, if_true]

/-- Witness for C4: a stored hash reading `tampered` (8 characters, so never
equal to a recomputed 64-character hash) makes a dispatch under the default
strict rules fail with the concurrent-modification error and change
nothing. -/
theorem hash_integrity_guard_witness :
    c4Store.initialized ∧ c4State._meta.hash ≠ "" ∧
    c4State._meta.hash ≠ computeHash c4State ∧
    dispatchAction idEnv none c4Store c1StartDraft 0 =
      (c4Store,
        .error "State file was edited manually. Rebuild state before dispatching new actions.",
        1) := by
  have hne2 : c4State._meta.hash ≠ computeHash c4State := by
    intro h
    have hl := computeHash_length c4State
    rw [← h] at hl
    exact absurd hl (by decide)
  exact ⟨⟨rfl, rfl, rfl⟩, by decide, hne2,
    hash_integrity_guard idEnv none c4Store c1StartDraft 0 c4State rfl rfl ⟨rfl, rfl, rfl⟩
      (by decide) hne2⟩

/-- C4 counterexample: a document whose stored hash is blank — which cannot
be the hash of its contents, since recomputed hashes have 64 characters —
passes the strict-mode check and the dispatch succeeds: the guard does not
fire for every externally mutated document. -/
theorem hash_guard_counterexample :
    defaultRules.strictMode = true ∧
    c1State0._meta.hash ≠ computeHash c1State0 ∧
    exceptIsOk (dispatchAction idEnv none c4BlankStore c4UnpinDraft 0).2.1 = true := by
  refine ⟨rfl, ?_, rfl⟩
  intro h
  have hl := computeHash_length c1State0
  rw [← h] at hl
  exact absurd hl (by decide)

theorem reachable_dispatch {r : RulesConfig} {env : Env} {s : Store} {d : ActionDraft}
    {k : Nat} (hs : ReachableStore r s)
    (hok : exceptIsOk (dispatchAction env none s d k).2.1 = true) :
    ReachableStore r (dispatchAction env none s d k).1 := by
  rcases hres : dispatchAction env none s d k with ⟨s2, res, k2⟩
  rcases res with e | st
  · rw [hres] at hok
    exact absurd hok (by simp [exceptIsOk])
  · exact ReachableStore.step hs hres

theorem consistent_of_active_none (s : AgentState) (h : s.active_task = none) :
    activeTaskConsistent s := by
  intro id hid
  rw [h] at hid
  exact Option.noConfusion hid

theorem seed_active_none (env : Env) (c : Option GoalContract) (k : Nat)
    (s' : AgentState) (k' : Nat) (h : seedStateFromContract env c k = (some s', k')) :
    s'.active_task = none := by
  cases c with
  | none => exact Option.noConfusion (congrArg Prod.fst h)
  | some c0 =>
    simp only [seedStateFromContract, defaultState, nowIso] at h
    have h1 := congrArg Prod.fst h
    simp only at h1
    injection h1 with h2
    rw [← h2]

theorem ensure_consistent (env : Env) (s : Store) (k : Nat) (hI : StoreConsistent s) :
    ∃ st, (ensureStateStoreFiles env s k).1.stateDoc = some st ∧ activeTaskConsistent st := by
  rcases hsd : s.stateDoc with _ | st0
  · rcases hseed : seedStateFromContract env s.contractDoc k with ⟨oseed, k1⟩
    rcases oseed with _ | sd
    · rcases hdef : defaultState env k1 with ⟨d0, k2⟩
      refine ⟨d0, ?_, consistent_of_active_none d0 ?_⟩
      · simp only [ensureStateStoreFiles, hsd, hseed, hdef]
        split <;> split <;> rfl
      · have h1 : (defaultState env k1).1 = d0 := congrArg Prod.fst hdef
        rw [← h1]
        rfl
    · refine ⟨sd, ?_,
        consistent_of_active_none sd (seed_active_none env s.contractDoc k sd k1 hseed)⟩
      simp only [ensureStateStoreFiles, hsd, hseed]
      split <;> split <;> rfl
  · refine ⟨st0, ?_, hI st0 hsd⟩
    simp only [ensureStateStoreFiles, hsd]
    split <;> split <;> first | rfl | exact hsd

theorem addTasksLoop_mem (env : Env) :
    ∀ (elems : List Json) (tasks : List AgentTask) (queue : List String) (k : Nat)
      (res : List AgentTask × List String × Nat),
      addTasksLoop env elems tasks queue k = .ok res →
      ∀ t ∈ tasks, t ∈ res.1 := by
  intro elems
  induction elems with
  | nil =>
    intro tasks queue k res hres t ht
    simp only [addTasksLoop] at hres
    injection hres with h1
    rw [← h1]
    exact ht
  | cons e rest ih =>
    intro tasks queue k res hres t ht
    simp only [addTasksLoop] at hres
    repeat' split at hres
    all_goals try exact Except.noConfusion hres
    all_goals first
      | exact ih _ _ _ _ hres t ht
      | exact ih _ _ _ _ hres t (List.mem_append.mpr (Or.inl ht))

theorem setFirst_keep (tid : String) (stat : AgentTaskStatus) (tasks : List AgentTask)
    (t : AgentTask) (ht : t ∈ tasks) (hne : (t.id == tid) = false) :
    t ∈ setFirstTaskStatus tid stat tasks := by
  induction tasks with
  | nil => exact absurd ht (List.not_mem_nil t)
  | cons x rest ih =>
    rcases List.mem_cons.mp ht with h | h
    · subst h
      simp only [setFirstTaskStatus, hne]
      exact List.mem_cons_self _ _
    · simp only [setFirstTaskStatus]
      split
      · exact List.mem_cons_of_mem _ h
      · exact List.mem_cons_of_mem _ (ih h)

theorem setFirst_found (tid : String) (stat : AgentTaskStatus) :
    ∀ (tasks : List AgentTask) (tk : AgentTask),
      tasks.find? (fun t => t.id == tid) = some tk →
      ∃ t ∈ setFirstTaskStatus tid stat tasks, t.id = tid ∧ t.status = stat := by
  intro tasks
  induction tasks with
  | nil => intro tk h; exact Option.noConfusion h
  | cons x rest ih =>
    intro tk h
    simp only [List.find?] at h
    rcases hx : (x.id == tid) with _ | _
    · rw [hx] at h
      obtain ⟨t, hmem, h1, h2⟩ := ih tk h
      refine ⟨t, ?_, h1, h2⟩
      simp only [setFirstTaskStatus, hx]
      exact List.mem_cons_of_mem _ hmem
    · refine ⟨{ x with status := stat }, ?_, eq_of_beq hx, rfl⟩
      simp only [setFirstTaskStatus, hx]
      exact List.mem_cons_self _ _

theorem applyActionJson_preserves (env : Env) (st : AgentState) (a : AgentAction)
    (rules : RulesConfig) (k : Nat) (next : AgentState) (k2 : Nat)
    (hcons : activeTaskConsistent st)
    (h : applyActionJson env st a rules k = .ok (next, k2)) :
    activeTaskConsistent next := by
  simp only [applyActionJson] at h
  split at h
  · exact Except.noConfusion h
  · rename_i next0 k1 heq
    injection h with hpair
    injection hpair with h1 h2
    subst h1
    intro id hid
    cases hT1 : a.type == "SET_GOAL" with
    | true =>
      rw [if_pos hT1] at heq
      injection heq with hp
      injection hp with h3 h4
      subst h3
      exact hcons id hid
    | false =>
    rw [if_neg (by simp [hT1])] at heq
    cases hT2 : a.type == "ADD_TASKS" with
    | true =>
      rw [if_pos hT2] at heq
      split at heq
      · exact Except.noConfusion heq
      · rename_i tasks1 queue1 k1b heq2
        injection heq with hp
        injection hp with h3 h4
        subst h3
        obtain ⟨t, ht, hti, hstat⟩ := hcons id hid
        exact ⟨t, addTasksLoop_mem env _ _ _ _ _ heq2 t ht, hti, hstat⟩
    | false =>
    rw [if_neg (by simp [hT2])] at heq
    cases hT3 : a.type == "START_TASK" with
    | true =>
      rw [if_pos hT3] at heq
      split at heq
      · exact Except.noConfusion heq
      · rename_i tk hfind
        split at heq
        · exact Except.noConfusion heq
        · injection heq with hp
          injection hp with h3 h4
          subst h3
          injection hid with hid2
          subst hid2
          exact setFirst_found _ _ _ _ hfind
    | false =>
    rw [if_neg (by simp [hT3])] at heq
    cases hT4 : a.type == "COMPLETE_TASK" with
    | true =>
      rw [if_pos hT4] at heq
      split at heq
      · exact Except.noConfusion heq
      · rename_i tk hfind
        split at heq
        · exact Except.noConfusion heq
        · injection heq with hp
          injection hp with h3 h4
          subst h3
          have hid2 : (if (st.active_task == some (jsStringOr a.payload "taskId" "")) = true
              then none else st.active_task) = some id := hid
          split at hid2
          · exact Option.noConfusion hid2
          · rename_i hc
            obtain ⟨t, ht, hti, hstat⟩ := hcons id hid2
            have hne : (t.id == jsStringOr a.payload "taskId" "") = false := by
              rcases hbeq : t.id == jsStringOr a.payload "taskId" "" with _ | _
              · rfl
              · exfalso
                apply hc
                have hidt : id = jsStringOr a.payload "taskId" "" := by
                  rw [← hti]
                  exact eq_of_beq hbeq
                exact beq_iff_eq.mpr (by rw [hid2, hidt])
            exact ⟨t, setFirst_keep _ _ _ _ ht hne, hti, hstat⟩
    | false =>
    rw [if_neg (by simp [hT4])] at heq
    repeat' split at heq
    all_goals try exact Except.noConfusion heq
    all_goals
      injection heq with hp
      injection hp with h3 h4
      subst h3
      exact hcons id hid

theorem reduceAction_preserves (env : Env) (rules : RulesConfig) (st : AgentState)
    (a : AgentAction) (k : Nat) (next : AgentState) (k2 : Nat)
    (hcons : activeTaskConsistent st)
    (h : reduceAction env none rules st a k = .ok (next, k2)) :
    activeTaskConsistent next := by
  simp only [reduceAction] at h
  repeat' split at h
  all_goals try exact Except.noConfusion h
  all_goals first
    | exact applyActionJson_preserves env st a rules k next k2 hcons h
    | simp_all

theorem dispatch_preserves (env : Env) (s : Store) (d : ActionDraft) (k : Nat)
    (s2 : Store) (st0 : AgentState) (k2 : Nat)
    (hI : StoreConsistent s)
    (hd : dispatchAction env none s d k = (s2, .ok st0, k2)) :
    StoreConsistent s2 := by
  obtain ⟨cur, hcur, hconsCur⟩ := ensure_consistent env s k hI
  rcases hens : ensureStateStoreFiles env s k with ⟨s1, k1⟩
  rw [hens] at hcur
  have hcur2 : s1.stateDoc = some cur := hcur
  rcases hdef : defaultState env k1 with ⟨dfl, k1b⟩
  simp only [dispatchAction, hens, loadState, hdef, newId, nowIso, hcur2,
    Option.getD_some] at hd
  repeat' split at hd
  all_goals try exact Except.noConfusion (congrArg (fun p => p.2.1) hd)
  all_goals
    intro st1 hst1
    have hs2 : _ = s2 := congrArg (fun p => p.1) hd
    rw [← hs2] at hst1
    repeat' split at hst1
    all_goals
      injection hst1 with hst2
      subst hst2
      exact reduceAction_preserves env (loadRules s) cur _ _ _ _ hconsCur (by assumption)

/-- C2 (amended): every state document reachable from a fresh workspace
through successful dispatches satisfies the consistency invariant the engine
actually maintains: whenever `active_task` is set, a task with that id exists
and is `doing`.  (At most one `doing` task does NOT hold — see the
counterexample, where a decision-gated task switch leaves two tasks
`doing`.) -/
theorem active_task_invariant :
    ∀ (r : RulesConfig) (store : Store) (st : AgentState),
      ReachableStore r store → store.stateDoc = some st → activeTaskConsistent st := by
  have main : ∀ (r : RulesConfig) (store : Store),
      ReachableStore r store → StoreConsistent store := by
    intro r store hreach
    induction hreach with
    | init => intro st hst; exact Option.noConfusion hst
    | step hprev hdisp ih => exact dispatch_preserves _ _ _ _ _ _ _ ih hdisp
  intro r store st hreach hst
  exact main r store hreach st hst

/-- Witness for C2: the state reached by dispatching `ADD_TASKS` on a fresh
workspace satisfies the consistency invariant. -/
theorem active_task_invariant_witness : activeTaskConsistent c2WitnessState :=
  active_task_invariant c1Rules c2Store1 c2WitnessState
    (reachable_dispatch ReachableStore.init rfl) rfl

/-- C2 counterexample: with single-active-task mode enabled, the dispatch
chain `ADD_TASKS(t1,t2)`, `START_TASK(t1)`, `ADD_DECISION`,
`START_TASK(t2, decision_id)` reaches a store whose state has TWO tasks in
status `doing`: `START_TASK` never demotes the previously active task. -/
theorem single_active_counterexample :
    c1Rules.invariants.singleActiveTask = true ∧
    ∃ store, ReachableStore c1Rules store ∧
      (match store.stateDoc with
        | some st => countDoing st.tasks
        | none => 0) = 2 := by
  refine ⟨rfl, ⟨c2Store4, ?_, by decide⟩⟩
  exact reachable_dispatch (reachable_dispatch (reachable_dispatch (reachable_dispatch
    ReachableStore.init rfl) rfl) rfl) rfl

theorem listAll_drop {α : Type} {p : α → Bool} (l : List α) (n : Nat)
    (h : l.all p = true) : (l.drop n).all p = true := by
  rw [List.all_eq_true] at h ⊢
  intro x hx
  exact h x (List.mem_of_mem_drop hx)

theorem addTasksLoop_det (envA envB : Env) :
    ∀ (elems : List Json) (tasks : List AgentTask) (queue : List String) (kA kB : Nat),
      addTasksElemsHaveIds elems = true →
      ((addTasksLoop envA elems tasks queue kA).map fun r => (r.1, r.2.1))
        = ((addTasksLoop envB elems tasks queue kB).map fun r => (r.1, r.2.1)) := by
  intro elems
  induction elems with
  | nil => intro tasks queue kA kB hids; rfl
  | cons e rest ih =>
    intro tasks queue kA kB hids
    cases e with
    | null => simp [addTasksElemsHaveIds] at hids
    | bool b => simp [addTasksElemsHaveIds, jsGetField] at hids
    | num n => simp [addTasksElemsHaveIds, jsGetField] at hids
    | str s => simp [addTasksElemsHaveIds, jsGetField] at hids
    | arr xs => simp [addTasksElemsHaveIds, jsGetField] at hids
    | obj fields =>
      simp only [addTasksLoop]
      rcases hj : jsGetField (.obj fields) "id" with _ | v
      · simp [addTasksElemsHaveIds, hj] at hids
      · cases v
        case null => simp [addTasksElemsHaveIds, hj] at hids
        all_goals
          simp only [addTasksElemsHaveIds, hj, Bool.true_and] at hids
          simp only [hj]
          split <;> exact ih _ _ _ _ hids

theorem applyActionJson_core_det (envA envB : Env) (sA sB : AgentState) (a : AgentAction)
    (rules : RulesConfig) (kA kB : Nat)
    (hfree : actionIdFree a = true)
    (hcore : sA.core = sB.core) :
    ((applyActionJson envA sA a rules kA).map fun p => p.1.core)
      = ((applyActionJson envB sB a rules kB).map fun p => p.1.core) := by
  simp only [AgentState.core, Prod.mk.injEq] at hcore
  obtain ⟨hg, hdod, hcon, hact, htasks, hq, hoq, hdec, hpin, hlaid, hcnt⟩ := hcore
  simp only [applyActionJson]
  simp only [hg, hdod, hcon, hact, htasks, hq, hoq, hdec, hpin, hlaid, hcnt]
  cases hT1 : a.type == "SET_GOAL" with
  | true => rfl
  | false =>
  simp only [Bool.false_eq_true, if_false]
  cases hT2 : a.type == "ADD_TASKS" with
  | true =>
    simp only [eq_self_iff_true, if_true]
    simp only [actionIdFree, hT2, if_pos (Eq.refl true)] at hfree
    rcases hjt : jsGetField a.payload "tasks" with _ | v
    · rfl
    · cases v
      case arr xs =>
        rw [hjt] at hfree
        simp only [hjt]
        have hdet := addTasksLoop_det envA envB xs sB.tasks sB.queue kA kB hfree
        rcases hA2 : addTasksLoop envA xs sB.tasks sB.queue kA with eA | ⟨tA, qA, kA1⟩ <;>
          rcases hB2 : addTasksLoop envB xs sB.tasks sB.queue kB with eB | ⟨tB, qB, kB1⟩ <;>
          simp only [hA2, hB2, Except.map, Except.ok.injEq, Except.error.injEq,
            Prod.mk.injEq] at hdet ⊢
        · exact hdet
        · exact Except.noConfusion hdet
        · exact Except.noConfusion hdet
        · obtain ⟨ht2, hq2⟩ := hdet
          subst ht2
          subst hq2
          rfl
      all_goals rfl
  | false =>
  simp only [Bool.false_eq_true, if_false]
  cases hT3 : a.type == "START_TASK" with
  | true =>
    simp only [eq_self_iff_true, if_true]
    generalize List.find? (fun t => t.id == jsStringOr a.payload "taskId" "") sB.tasks = fr
    rcases fr with _ | tk
    · rfl
    · try simp only []
      split_ifs <;> rfl
  | false =>
  simp only [Bool.false_eq_true, if_false]
  cases hT4 : a.type == "COMPLETE_TASK" with
  | true =>
    simp only [eq_self_iff_true, if_true]
    generalize List.find? (fun t => t.id == jsStringOr a.payload "taskId" "") sB.tasks = fr
    rcases fr with _ | tk
    · rfl
    · try simp only []
      split_ifs <;> rfl
  | false =>
  simp only [Bool.false_eq_true, if_false]
  cases hT5 : a.type == "OPEN_QUESTION" with
  | true =>
    exfalso
    simp only [actionIdFree] at hfree
    rw [if_neg (show ¬(a.type == "ADD_TASKS") = true by simp [hT2])] at hfree
    rw [eq_of_beq hT5] at hfree
    exact absurd hfree (by decide)
  | false =>
  simp only [Bool.false_eq_true, if_false]
  cases hT6 : a.type == "CLOSE_QUESTION" with
  | true =>
    simp only [eq_self_iff_true, if_true]
    generalize List.find? (fun q => q.id == jsStringOr a.payload "id" "") sB.open_questions = fr
    rcases fr with _ | q
    · rfl
    · rfl
  | false =>
  simp only [Bool.false_eq_true, if_false]
  cases hT7 : a.type == "ADD_DECISION" with
  | true =>
    exfalso
    simp only [actionIdFree] at hfree
    rw [if_neg (show ¬(a.type == "ADD_TASKS") = true by simp [hT2])] at hfree
    rw [eq_of_beq hT7] at hfree
    exact absurd hfree (by decide)
  | false =>
  simp only [Bool.false_eq_true, if_false]
  cases hT8 : a.type == "PIN_CONTEXT" with
  | true =>
    simp only [eq_self_iff_true, if_true]
    rcases hcond : (jsStringOr a.payload "path" "" != ""
        && !sB.pinned_context.contains (jsStringOr a.payload "path" "")) with _ | _
    · simp only [hcond, Bool.false_eq_true, if_false, Except.map, AgentState.core,
        Except.ok.injEq, Prod.mk.injEq]
      repeat' apply And.intro
      all_goals first | rfl | trivial | assumption | rw [hcnt]
    · simp only [hcond, eq_self_iff_true, if_true]
      rfl
  | false =>
  simp only [Bool.false_eq_true, if_false]
  cases hT9 : a.type == "UNPIN_CONTEXT"
  all_goals simp only [Bool.false_eq_true, if_false, eq_self_iff_true, if_true]
  all_goals try rfl

theorem reduceAction_core_det (envA envB : Env) (rules : RulesConfig)
    (sA sB : AgentState) (a : AgentAction) (kA kB : Nat)
    (hfree : actionIdFree a = true) (hcore : sA.core = sB.core) :
    ((reduceAction envA none rules sA a kA).map fun p => p.1.core)
      = ((reduceAction envB none rules sB a kB).map fun p => p.1.core) := by
  simp only [reduceAction]
  rcases hv : validateOrThrow a with e | ⟨⟩
  · rfl
  · cases hp : rules.preferredReducer
    all_goals exact applyActionJson_core_det envA envB sA sB a rules kA kB hfree hcore

theorem replayFold_core_det (envA envB : Env) (rules : RulesConfig) :
    ∀ (actions : List AgentAction) (sA sB : AgentState) (kA kB : Nat),
      actions.all actionIdFree = true →
      sA.core = sB.core →
      ((replayFold envA none rules actions sA kA).map fun p => p.1.core)
        = ((replayFold envB none rules actions sB kB).map fun p => p.1.core) := by
  intro actions
  induction actions with
  | nil =>
    intro sA sB kA kB hall hcore
    simp only [replayFold, Except.map, Except.ok.injEq]
    exact hcore
  | cons a rest ih =>
    intro sA sB kA kB hall hcore
    simp only [List.all_cons, Bool.and_eq_true] at hall
    obtain ⟨ha, hrest⟩ := hall
    simp only [replayFold]
    have hred := reduceAction_core_det envA envB rules sA sB a kA kB ha hcore
    rcases hA : reduceAction envA none rules sA a kA with eA | ⟨sA1, kA1⟩ <;>
      rcases hB : reduceAction envB none rules sB a kB with eB | ⟨sB1, kB1⟩ <;>
      simp only [hA, hB, Except.map, Except.ok.injEq, Except.error.injEq] at hred ⊢
    · exact hred
    · exact Except.noConfusion hred
    · exact Except.noConfusion hred
    · exact ih sA1 sB1 kA1 kB1 hrest hred

theorem seed_some_core (envA envB : Env) (c : GoalContract) (kA kB : Nat)
    (sA sB : AgentState) (kA2 kB2 : Nat)
    (hA : seedStateFromContract envA (some c) kA = (some sA, kA2))
    (hB : seedStateFromContract envB (some c) kB = (some sB, kB2)) :
    sA.core = sB.core := by
  simp only [seedStateFromContract, defaultState, nowIso] at hA hB
  injection hA with hA1 hA2
  injection hB with hB1 hB2
  injection hA1 with hA3
  injection hB1 with hB3
  rw [← hA3, ← hB3]
  rfl

theorem ensure_other_fields (env : Env) (s : Store) (k : Nat) :
    loadRules (ensureStateStoreFiles env s k).1 = loadRules s ∧
    loadActions (ensureStateStoreFiles env s k).1 = loadActions s ∧
    (ensureStateStoreFiles env s k).1.snapshotDoc = s.snapshotDoc ∧
    (ensureStateStoreFiles env s k).1.contractDoc = s.contractDoc := by
  rcases hsd : s.stateDoc with _ | st0
  · rcases hseed : seedStateFromContract env s.contractDoc k with ⟨os, k1⟩
    rcases os with _ | sd
    · rcases hdef : defaultState env k1 with ⟨d0, k2⟩
      simp only [ensureStateStoreFiles, hsd, hseed, hdef]
      rcases ha : s.actionsDoc with _ | a0 <;> rcases hr : s.rulesDoc with _ | r0 <;>
        simp [loadRules, loadActions, ha, hr]
    · simp only [ensureStateStoreFiles, hsd, hseed]
      rcases ha : s.actionsDoc with _ | a0 <;> rcases hr : s.rulesDoc with _ | r0 <;>
        simp [loadRules, loadActions, ha, hr]
  · simp only [ensureStateStoreFiles, hsd]
    rcases ha : s.actionsDoc with _ | a0 <;> rcases hr : s.rulesDoc with _ | r0 <;>
      simp [loadRules, loadActions, ha, hr]

/-- C5 (amended): rebuilds are deterministic in everything except the two
restamped meta fields: for any store whose action log contains only id-free
action types (no fresh timestamp or id draws during replay), two rebuilds
under arbitrary ambient clocks and id streams produce the same error, or
states with identical cores — goal, tasks, queue, questions, decisions,
pinned context, last action id and action count.  (The full documents are
NOT byte-identical: `lastUpdated` and hence the content hash differ between
runs — see the counterexample.) -/
theorem rebuild_core_deterministic :
    ∀ (envA envB : Env) (store : Store) (kA kB : Nat),
      (loadActions store).all actionIdFree = true →
      ((rebuildState envA none store kA).2.1.map AgentState.core)
        = ((rebuildState envB none store kB).2.1.map AgentState.core) := by
  intro envA envB store kA kB hall
  obtain ⟨hRA, hAA, hSA, hCA⟩ := ensure_other_fields envA store kA
  obtain ⟨hRB, hAB, hSB, hCB⟩ := ensure_other_fields envB store kB
  rcases hEA : ensureStateStoreFiles envA store kA with ⟨sA1, kA1⟩
  rcases hEB : ensureStateStoreFiles envB store kB with ⟨sB1, kB1⟩
  rw [hEA] at hRA hAA hSA hCA
  rw [hEB] at hRB hAB hSB hCB
  have hRA2 : loadRules sA1 = loadRules store := hRA
  have hAA2 : loadActions sA1 = loadActions store := hAA
  have hSA2 : sA1.snapshotDoc = store.snapshotDoc := hSA
  have hCA2 : sA1.contractDoc = store.contractDoc := hCA
  have hRB2 : loadRules sB1 = loadRules store := hRB
  have hAB2 : loadActions sB1 = loadActions store := hAB
  have hSB2 : sB1.snapshotDoc = store.snapshotDoc := hSB
  have hCB2 : sB1.contractDoc = store.contractDoc := hCB
  simp only [rebuildState, hEA, hEB, hRA2, hAA2, hSA2, hCA2, hRB2, hAB2, hSB2, hCB2]
  rcases hsn : store.snapshotDoc with _ | sn
  · rcases hc : store.contractDoc with _ | c0
    · rcases hdA : defaultState envA kA1 with ⟨dA, kA2⟩
      rcases hdB : defaultState envB kB1 with ⟨dB, kB2⟩
      simp only [seedStateFromContract, hdA, hdB, Int.toNat_zero, List.drop_zero]
      have hcore0 : dA.core = dB.core := by
        have h1 : (defaultState envA kA1).1 = dA := congrArg Prod.fst hdA
        have h2 : (defaultState envB kB1).1 = dB := congrArg Prod.fst hdB
        rw [← h1, ← h2]
        rfl
      have hrep := replayFold_core_det envA envB (loadRules store) (loadActions store)
        dA dB kA2 kB2 hall hcore0
      rcases hFA : replayFold envA none (loadRules store) (loadActions store) dA kA2
          with eA | ⟨stA, kA3⟩ <;>
        rcases hFB : replayFold envB none (loadRules store) (loadActions store) dB kB2
          with eB | ⟨stB, kB3⟩ <;>
        simp only [hFA, hFB, Except.map, Except.ok.injEq, Except.error.injEq,
          nowIso, AgentState.core, Prod.mk.injEq] at hrep ⊢
      · exact hrep
      · exact Except.noConfusion hrep
      · exact Except.noConfusion hrep
      · obtain ⟨g1, g2, g3, g4, g5, g6, g7, g8, g9, g10, g11⟩ := hrep
        exact ⟨g1, g2, g3, g4, g5, g6, g7, g8, g9, g10, trivial⟩
    · rcases hsA : seedStateFromContract envA (some c0) kA1 with ⟨osA, kA2⟩
      rcases hsB : seedStateFromContract envB (some c0) kB1 with ⟨osB, kB2⟩
      rcases osA with _ | s0A
      · exact absurd (congrArg Prod.fst hsA)
          (by simp [seedStateFromContract, defaultState, nowIso])
      rcases osB with _ | s0B
      · exact absurd (congrArg Prod.fst hsB)
          (by simp [seedStateFromContract, defaultState, nowIso])
      simp only [hsA, hsB, Int.toNat_zero, List.drop_zero]
      have hcore0 : s0A.core = s0B.core := seed_some_core envA envB c0 kA1 kB1 s0A s0B
        kA2 kB2 hsA hsB
      have hrep := replayFold_core_det envA envB (loadRules store) (loadActions store)
        s0A s0B kA2 kB2 hall hcore0
      rcases hFA : replayFold envA none (loadRules store) (loadActions store) s0A kA2
          with eA | ⟨stA, kA3⟩ <;>
        rcases hFB : replayFold envB none (loadRules store) (loadActions store) s0B kB2
          with eB | ⟨stB, kB3⟩ <;>
        simp only [hFA, hFB, Except.map, Except.ok.injEq, Except.error.injEq,
          nowIso, AgentState.core, Prod.mk.injEq] at hrep ⊢
      · exact hrep
      · exact Except.noConfusion hrep
      · exact Except.noConfusion hrep
      · obtain ⟨g1, g2, g3, g4, g5, g6, g7, g8, g9, g10, g11⟩ := hrep
        exact ⟨g1, g2, g3, g4, g5, g6, g7, g8, g9, g10, trivial⟩
  · have hpend := listAll_drop (loadActions store) (sn.lastActionIndex + 1).toNat hall
    have hrep := replayFold_core_det envA envB (loadRules store)
      ((loadActions store).drop (sn.lastActionIndex + 1).toNat)
      sn.state sn.state kA1 kB1 hpend rfl
    rcases hFA : replayFold envA none (loadRules store)
        ((loadActions store).drop (sn.lastActionIndex + 1).toNat) sn.state kA1
        with eA | ⟨stA, kA3⟩ <;>
      rcases hFB : replayFold envB none (loadRules store)
          ((loadActions store).drop (sn.lastActionIndex + 1).toNat) sn.state kB1
          with eB | ⟨stB, kB3⟩ <;>
      simp only [hFA, hFB, Except.map, Except.ok.injEq, Except.error.injEq,
        nowIso, AgentState.core, Prod.mk.injEq] at hrep ⊢
    · exact hrep
    · exact Except.noConfusion hrep
    · exact Except.noConfusion hrep
    · obtain ⟨g1, g2, g3, g4, g5, g6, g7, g8, g9, g10, g11⟩ := hrep
      exact ⟨g1, g2, g3, g4, g5, g6, g7, g8, g9, g10, trivial⟩

/-- Witness for C5: the two-rebuild core agreement at the concrete blank
store, under two different ambient environments. -/
theorem rebuild_core_deterministic_witness :
    (loadActions c4BlankStore).all actionIdFree = true ∧
    ((rebuildState idEnv none c4BlankStore 0).2.1.map AgentState.core)
      = ((rebuildState c5EnvB none c4BlankStore 0).2.1.map AgentState.core) :=
  ⟨rfl, rebuild_core_deterministic idEnv c5EnvB c4BlankStore 0 0 rfl⟩

/-- C5 counterexample: the same store rebuilt at two different wall-clock
instants yields different state documents — the restamped `lastUpdated`
fields disagree — so a rebuild is NOT byte-identical across runs (and the
content hashes, which cover `lastUpdated`, differ as well). -/
theorem rebuild_determinism_counterexample :
    ((rebuildState idEnv none c4BlankStore 0).2.1.map fun st => st._meta.lastUpdated)
        = .ok "T1" ∧
    ((rebuildState c5EnvB none c4BlankStore 0).2.1.map fun st => st._meta.lastUpdated)
        = .ok "U1" ∧
    ("T1" : String) ≠ "U1" :=
  ⟨rfl, rfl, by decide⟩

end CGG
